import Mathlib

/-!
Shallow embedding of the data-consolidation and aggregation-tool layer of
`Agente_streamlit.py` (invoice-analysis agent).

Tables are modelled as a list of column names plus rows of cells; a cell is a
missing-value marker (`na`, pandas NaN), a string, or a number.  Numeric values
are modelled as rationals: the concrete values the program manipulates are
decimal literals, which floats represent exactly at the precision the claims
exercise.  Python string case-mapping is modelled on ASCII and Latin-1 letters,
the alphabet used by the column names and data of the program.
-/

namespace Agente

/-- A table cell: missing (NaN), a string, or a numeric value. -/
inductive Cell where
  | na : Cell
  | str : String → Cell
  | num : Rat → Cell
deriving DecidableEq, Repr

/-- A dataframe: ordered column names and rows of cells (row i, column j). -/
structure DataFrame where
  cols : List String
  rows : List (List Cell)
deriving DecidableEq, Repr

/-- Well-formedness: every row has exactly one cell per column. -/
def DataFrame.WF (df : DataFrame) : Prop :=
  ∀ r ∈ df.rows, r.length = df.cols.length

instance (df : DataFrame) : Decidable df.WF := by
  unfold DataFrame.WF; infer_instance

/-- `df.empty` in pandas: no rows. -/
def DataFrame.isEmpty (df : DataFrame) : Bool := df.rows.isEmpty

/-- Python whitespace characters relevant to `str.strip()`. -/
def isSpaceChar (c : Char) : Bool :=
  c = ' ' ∨ c = '\t' ∨ c = '\n' ∨ c = '\r'

/-- Model of Python `str.strip()`: drop leading and trailing whitespace. -/
def pyStrip (s : String) : String :=
  String.mk (((s.data.dropWhile isSpaceChar).reverse.dropWhile isSpaceChar).reverse)

/-- Upper-case one character (ASCII `a`-`z` and Latin-1 `à`-`þ` except `÷`),
    the case mapping Python `str.upper()` applies on the alphabet of this program. -/
def upChar (c : Char) : Char :=
  if (97 ≤ c.toNat ∧ c.toNat ≤ 122) ∨
     (224 ≤ c.toNat ∧ c.toNat ≤ 254 ∧ c.toNat ≠ 247) then
    Char.ofNat (c.toNat - 32)
  else c

/-- Lower-case one character (inverse range of `upChar`). -/
def lowChar (c : Char) : Char :=
  if (65 ≤ c.toNat ∧ c.toNat ≤ 90) ∨
     (192 ≤ c.toNat ∧ c.toNat ≤ 222 ∧ c.toNat ≠ 215) then
    Char.ofNat (c.toNat + 32)
  else c

/-- Model of Python `str.upper()`. -/
def pyUpper (s : String) : String := String.mk (s.data.map upChar)

/-- Model of Python `str.lower()`. -/
def pyLower (s : String) : String := String.mk (s.data.map lowChar)

/-- Model of comma-to-period `str.replace` with `regex=False` (all occurrences). -/
def commaToDot (s : String) : String :=
  String.mk (s.data.map (fun c => if c = ',' then '.' else c))

/-- Python substring containment `needle in hay`, the semantics of
    `Series.str.contains` on the literal patterns the tools receive. -/
def strContainsSub (hay needle : String) : Bool :=
  (List.range (hay.data.length + 1)).any
    (fun i => needle.data.isPrefixOf (hay.data.drop i))

/-- Digits of a char list read as a base-10 natural number. -/
def digitsToNat (cs : List Char) : Nat :=
  cs.foldl (fun a c => a * 10 + (c.toNat - 48)) 0

/-- Model of `pd.to_numeric` on one text cell: decimal literals with an
    optional sign and at most one decimal point parse; anything else fails. -/
def parseDecimal (s : String) : Option Rat :=
  let cs := s.data
  let signed : Bool × List Char :=
    match cs with
    | '-' :: rest => (true, rest)
    | '+' :: rest => (false, rest)
    | _ => (false, cs)
  let neg := signed.1
  let body := signed.2
  match List.span (fun c => c != '.') body with
  | (intPart, []) =>
      if intPart ≠ [] ∧ intPart.all Char.isDigit then
        let v : Rat := (digitsToNat intPart : Rat)
        some (if neg then -v else v)
      else none
  | (intPart, _dot :: fracPart) =>
      if intPart.all Char.isDigit ∧ fracPart.all Char.isDigit ∧
         (intPart ≠ [] ∨ fracPart ≠ []) ∧ ¬ fracPart.contains '.' then
        let v : Rat :=
          (digitsToNat intPart : Rat) + (digitsToNat fracPart : Rat) / ((10 : Rat) ^ fracPart.length)
        some (if neg then -v else v)
      else none

/-- Model of Python `int(x)` on a string: strip, optional sign, digits only. -/
def parseIntStr (s : String) : Option Int :=
  let cs := (pyStrip s).data
  match cs with
  | '-' :: rest =>
      if rest ≠ [] ∧ rest.all Char.isDigit then some (-(digitsToNat rest : Int)) else none
  | '+' :: rest =>
      if rest ≠ [] ∧ rest.all Char.isDigit then some ((digitsToNat rest : Int)) else none
  | _ =>
      if cs ≠ [] ∧ cs.all Char.isDigit then some ((digitsToNat cs : Int)) else none

/-- Index of the first column named `c`. -/
def findCol (cols : List String) (c : String) : Option Nat :=
  match cols with
  | [] => none
  | c₀ :: cs => if c₀ = c then some 0 else (findCol cs c).map (· + 1)

/-- Cell lookup by column name: first column of that name, `na` when the
    column is absent (pandas raises instead; tools model that case apart). -/
def getCell (cols : List String) (row : List Cell) (c : String) : Cell :=
  match findCol cols c with
  | some i => row.getD i Cell.na
  | none => Cell.na

/-- `df.columns = [str(col).strip().upper() for col in df.columns]`. -/
def DataFrame.normalizeCols (df : DataFrame) : DataFrame :=
  { df with cols := df.cols.map (fun c => pyUpper (pyStrip c)) }

/-- `df.rename(columns={src: tgt}, inplace=True)` for exact-name matches. -/
def DataFrame.renameCol (df : DataFrame) (src tgt : String) : DataFrame :=
  { df with cols := df.cols.map (fun c => if c = src then tgt else c) }

/-- `df[c] = f(df[c])`: apply `f` to every cell of every column named `c`. -/
def DataFrame.mapCol (df : DataFrame) (c : String) (f : Cell → Cell) : DataFrame :=
  { df with rows := df.rows.map (fun r =>
      (df.cols.zip r).map (fun p => if p.1 = c then f p.2 else p.2)) }

/-- One cell of `pd.to_numeric` with `errors=coerce` applied to
    `series.astype(str)` after the comma swap.  `str` renders a float to text that reparses to the
    same value and NaN to text that reparses to NaN, so numeric and missing
    cells are fixed points; text cells are parsed after the comma swap. -/
def coerceCell : Cell → Cell
  | Cell.na => Cell.na
  | Cell.num q => Cell.num q
  | Cell.str s =>
      match parseDecimal (commaToDot s) with
      | some q => Cell.num q
      | none => Cell.na

/-- The guarded coercion loop body: `if col in df.columns: df[col] = ...`. -/
def coerceNumericColumn (df : DataFrame) (c : String) : DataFrame :=
  if c ∈ df.cols then df.mapCol c coerceCell else df

/-- `str(x)` for a cell, as used by `astype(str)` on the join key.  Integral
    numbers render as their digits (so a numeric key matches the same text
    key); non-integral numbers render as numerator/denominator, standing in
    for the float decimal rendering the claims never join on. -/
def cellToPyStr : Cell → String
  | Cell.na => "nan"
  | Cell.str s => s
  | Cell.num q => if q.den = 1 then toString q.num else toString q.num ++ "/" ++ toString q.den

/-- `df[c] = df[c].astype(str)`. -/
def castColToStr (df : DataFrame) (c : String) : DataFrame :=
  df.mapCol c (fun x => Cell.str (cellToPyStr x))

/-- `df.drop(columns=toDrop, errors=ignore)`. -/
def DataFrame.dropCols (df : DataFrame) (toDrop : List String) : DataFrame :=
  { cols := df.cols.filter (fun c => !(toDrop.contains c)),
    rows := df.rows.map (fun r =>
      ((df.cols.zip r).filter (fun p => !(toDrop.contains p.1))).map Prod.snd) }

/-- `pd.merge(h, i, on=key, how=inner)`: all header columns, then the item
    columns other than the key; one output row per matching (header row,
    item row) pair, header rows outermost, both sides in table order. -/
def mergeInner (h i : DataFrame) (key : String) : DataFrame :=
  { cols := h.cols ++ i.cols.filter (fun c => c != key),
    rows := (h.rows.map (fun hr =>
      (i.rows.filter (fun ir => getCell i.cols ir key == getCell h.cols hr key)).map
        (fun ir => hr ++ ((i.cols.zip ir).filter (fun p => p.1 != key)).map Prod.snd))).flatten }

/-- `df.fillna({c₁: v, ...}, inplace=True)`: fill NaN in the named columns. -/
def fillCols (df : DataFrame) (targets : List String) (v : Cell) : DataFrame :=
  { df with rows := df.rows.map (fun r =>
      (df.cols.zip r).map (fun p =>
        if targets.contains p.1 && p.2 == Cell.na then v else p.2)) }

/-- `df.fillna(v, inplace=True)`: fill every remaining NaN. -/
def fillAllNa (df : DataFrame) (v : Cell) : DataFrame :=
  { df with rows := df.rows.map (fun r => r.map (fun x => if x == Cell.na then v else x)) }

/-- The join key column name. -/
def KEY : String := "CHAVE DE ACESSO"

/-- The sentinel filled into missing `ITEM` / `FORNECEDOR` cells. -/
def sentinel : String := "Não especificado"

/-- Header-side normalization, rename and numeric coercion (source lines
    199-209). -/
def normalizeHeader (df : DataFrame) : DataFrame :=
  coerceNumericColumn
    ((df.normalizeCols).renameCol "RAZÃO SOCIAL EMITENTE" "FORNECEDOR")
    "VALOR NOTA FISCAL"

/-- Item-side normalization, rename and numeric coercions (source lines
    200-215). -/
def normalizeItens (df : DataFrame) : DataFrame :=
  ["QUANTIDADE", "VALOR UNITÁRIO", "VALOR TOTAL"].foldl coerceNumericColumn
    ((df.normalizeCols).renameCol "DESCRIÇÃO DO PRODUTO/SERVIÇO" "ITEM")

/-- Drop from the item table the non-key columns also present in the header
    table (source lines 224-226). -/
def cleanItens (hK iK : DataFrame) : DataFrame :=
  iK.dropCols (iK.cols.filter (fun c => hK.cols.contains c && c != KEY))

/-- The two `fillna` steps after the join (source lines 229-230). -/
def fillConsolidado (m : DataFrame) : DataFrame :=
  fillAllNa (fillCols m ["ITEM", "FORNECEDOR"] (Cell.str sentinel)) (Cell.num 0)

/-- Result of `_load_and_preprocess_data`: the final state of the two input
    tables (mutated in place by the source) and the consolidated table
    (`none` when the join key is missing and consolidation is aborted). -/
structure LoadResult where
  cabecalho : DataFrame
  itens : DataFrame
  consolidado : Option DataFrame
deriving DecidableEq, Repr

/-- `_load_and_preprocess_data(df_cabecalho, df_itens)` (source lines
    193-233). -/
def loadAndPreprocessData (dfC dfI : DataFrame) : LoadResult :=
  let hN := normalizeHeader dfC
  let iN := normalizeItens dfI
  if KEY ∈ hN.cols ∧ KEY ∈ iN.cols then
    let hK := castColToStr hN KEY
    let iK := castColToStr iN KEY
    ⟨hK, iK, some (fillConsolidado (mergeInner hK (cleanItens hK iK) KEY))⟩
  else
    ⟨hN, iN, none⟩

/-! ### Aggregation tools -/

/-- A Python value passed as the `n` argument of a tool. -/
inductive PyVal where
  | vint : Int → PyVal
  | vstr : String → PyVal
  | vnone : PyVal
deriving DecidableEq, Repr

/-- Python `int(n)` as used in the tools; `none` models the raised
    `ValueError`/`TypeError` the source catches. -/
def pyToInt : PyVal → Option Int
  | PyVal.vint i => some i
  | PyVal.vstr s => parseIntStr s
  | PyVal.vnone => none

/-- The structured error payloads (`{"erro": ...}`) the tools return. -/
inductive ToolError where
  | dataFrameVazio : ToolError
  | parametroNInvalido : PyVal → ToolError
  | metricaInvalida : ToolError
  | contarOQueInvalido : ToolError
  | fornecedorNaoEncontrado : String → ToolError
deriving DecidableEq, Repr

/-- A tool invocation outcome: a structured error, a structured result, or
    an uncaught Python exception (`raised`). -/
inductive ToolResult where
  | erro : ToolError → ToolResult
  | valorTotalGasto : Rat → ToolResult
  | itemInfo (item fornecedor valorUnitario : Cell) (descricao : String) : ToolResult
  | series : List (Cell × Rat) → ToolResult
  | contagem : Nat → ToolResult
  | raised : ToolResult
deriving DecidableEq, Repr

/-- Numeric reading of a cell inside a sum: NaN contributes zero
    (pandas `sum` skips NaN). -/
def cellNum : Cell → Rat
  | Cell.num q => q
  | _ => 0

/-- Numeric reading of a cell for `idxmax`/`idxmin`: NaN is skipped. -/
def cellNumOpt : Cell → Option Rat
  | Cell.num q => some q
  | _ => none

/-- `calcular_valor_total_gasto` (source lines 57-66). -/
def calcularValorTotalGasto (df : DataFrame) : ToolResult :=
  if df.isEmpty then ToolResult.erro ToolError.dataFrameVazio
  else if df.cols.contains "VALOR TOTAL" then
    ToolResult.valorTotalGasto
      ((df.rows.map (fun r => cellNum (getCell df.cols r "VALOR TOTAL"))).sum)
  else ToolResult.raised

/-- `Series.idxmax`: position and value of the first maximal non-NaN entry;
    `none` when no entry is numeric (pandas raises). -/
def idxmaxFrom : List (Option Rat) → Option (Nat × Rat)
  | [] => none
  | Option.none :: rest => (idxmaxFrom rest).map (fun p => (p.1 + 1, p.2))
  | Option.some v :: rest =>
      match idxmaxFrom rest with
      | Option.none => some (0, v)
      | Option.some (i, w) => if v < w then (i + 1, w) else (0, v)

/-- `Series.idxmin`: position and value of the first minimal non-NaN entry. -/
def idxminFrom : List (Option Rat) → Option (Nat × Rat)
  | [] => none
  | Option.none :: rest => (idxminFrom rest).map (fun p => (p.1 + 1, p.2))
  | Option.some v :: rest =>
      match idxminFrom rest with
      | Option.none => some (0, v)
      | Option.some (i, w) => if w < v then (i + 1, w) else (0, v)

/-- `encontrar_item_mais_caro_ou_barato` (source lines 68-90). -/
def encontrarItemMaisCaroOuBarato (df : DataFrame) (ordenacao : String) : ToolResult :=
  if df.isEmpty then ToolResult.erro ToolError.dataFrameVazio
  else
    let vals := df.rows.map (fun r => cellNumOpt (getCell df.cols r "VALOR UNITÁRIO"))
    match if ordenacao = "caro" then idxmaxFrom vals else idxminFrom vals with
    | Option.none => ToolResult.raised
    | Option.some p =>
        let row := df.rows.getD p.1 []
        ToolResult.itemInfo (getCell df.cols row "ITEM") (getCell df.cols row "FORNECEDOR")
          (getCell df.cols row "VALOR UNITÁRIO")
          (if ordenacao = "caro" then "mais caro" else "mais barato")

/-- Strict code-point lexicographic order on char lists. -/
def strLtChars : List Char → List Char → Bool
  | [], [] => false
  | [], _ :: _ => true
  | _ :: _, [] => false
  | a :: as, b :: bs => if a < b then true else if b < a then false else strLtChars as bs

/-- Sorting-key order for group labels: pandas `groupby(..., sort=True)`
    sorts the keys; on the text keys the tools group by this is code-point
    order of the rendered value. -/
def cellKeyLe (a b : Cell) : Prop :=
  strLtChars (cellToPyStr b).data (cellToPyStr a).data = false

instance : DecidableRel cellKeyLe := by
  unfold cellKeyLe; infer_instance

/-- The distinct non-NaN values of column `c`, as pandas grouping keys and
    `Series.nunique` (which drops NaN) see them. -/
def distinctKeys (df : DataFrame) (c : String) : List Cell :=
  ((df.rows.map (fun r => getCell df.cols r c)).filter (fun x => x ≠ Cell.na)).dedup

/-- `df.groupby(keyCol)[valCol].sum()`: one entry per distinct non-NaN key,
    keys sorted ascending, value the per-group sum (NaN summed as zero). -/
def groupbySum (df : DataFrame) (keyCol valCol : String) : List (Cell × Rat) :=
  (List.insertionSort cellKeyLe (distinctKeys df keyCol)).map
    (fun k => (k, ((df.rows.filter (fun r => getCell df.cols r keyCol == k)).map
        (fun r => cellNum (getCell df.cols r valCol))).sum))

/-- Descending-by-value order used by `Series.nlargest`. -/
def byValGe (a b : Cell × Rat) : Prop := b.2 ≤ a.2

instance : DecidableRel byValGe := by
  unfold byValGe; infer_instance

/-- Ascending-by-value order used by `Series.nsmallest`. -/
def byValLe (a b : Cell × Rat) : Prop := a.2 ≤ b.2

instance : DecidableRel byValLe := by
  unfold byValLe; infer_instance

/-- `Series.nlargest(n)`: the `n` largest entries in descending order,
    ties broken by position (stable). -/
def nlargestPd (n : Int) (l : List (Cell × Rat)) : List (Cell × Rat) :=
  (List.insertionSort byValGe l).take n.toNat

/-- `Series.nsmallest(n)`: the `n` smallest entries in ascending order,
    ties broken by position (stable). -/
def nsmallestPd (n : Int) (l : List (Cell × Rat)) : List (Cell × Rat) :=
  (List.insertionSort byValLe l).take n.toNat

/-- `obter_top_n_itens_por` (source lines 92-119). -/
def obterTopNItensPor (df : DataFrame) (metrica : String) (n : PyVal) (ordem : String) :
    ToolResult :=
  match pyToInt n with
  | Option.none => ToolResult.erro (ToolError.parametroNInvalido n)
  | Option.some nv =>
    if df.isEmpty then ToolResult.erro ToolError.dataFrameVazio
    else
      match if metrica = "quantidade" then some "QUANTIDADE"
            else if metrica = "valor" then some "VALOR TOTAL"
            else none with
      | Option.none => ToolResult.erro ToolError.metricaInvalida
      | Option.some valCol =>
        if df.cols.contains "ITEM" && df.cols.contains valCol then
          let agrupado := groupbySum df "ITEM" valCol
          ToolResult.series
            (if ordem = "maior" then nlargestPd nv agrupado else nsmallestPd nv agrupado)
        else ToolResult.raised

/-- `obter_top_n_fornecedores_por_valor` (source lines 122-143). -/
def obterTopNFornecedoresPorValor (df : DataFrame) (n : PyVal) (ordem : String) : ToolResult :=
  match pyToInt n with
  | Option.none => ToolResult.erro (ToolError.parametroNInvalido n)
  | Option.some nv =>
    if df.isEmpty then ToolResult.erro ToolError.dataFrameVazio
    else if df.cols.contains "FORNECEDOR" && df.cols.contains "VALOR NOTA FISCAL" then
      let agrupado := groupbySum df "FORNECEDOR" "VALOR NOTA FISCAL"
      ToolResult.series
        (if ordem = "maior" then nlargestPd nv agrupado else nsmallestPd nv agrupado)
    else ToolResult.raised

/-- One cell of `Series.str.contains(needle, case=False, na=False)`:
    NaN and non-string cells count as no match. -/
def cellContainsCI (x : Cell) (needle : String) : Bool :=
  match x with
  | Cell.str s => strContainsSub (pyLower s) (pyLower needle)
  | _ => false

/-- `contar_notas_ou_itens` (source lines 146-169); `fornecedor = None` and
    `fornecedor = ""` are both falsy in `if fornecedor:`. -/
def contarNotasOuItens (df : DataFrame) (contarOQue : String) (fornecedor : Option String) :
    ToolResult :=
  if df.isEmpty then ToolResult.erro ToolError.dataFrameVazio
  else
    let fstr := fornecedor.getD ""
    if fstr ≠ "" ∧ ¬ df.cols.contains "FORNECEDOR" then ToolResult.raised
    else
      let dfF := if fstr ≠ "" then
          { df with rows := df.rows.filter (fun r => cellContainsCI (getCell df.cols r "FORNECEDOR") fstr) }
        else df
      if fstr ≠ "" ∧ dfF.isEmpty then
        ToolResult.erro (ToolError.fornecedorNaoEncontrado fstr)
      else if contarOQue = "notas" then
        if df.cols.contains KEY then ToolResult.contagem (distinctKeys dfF KEY).length
        else ToolResult.raised
      else if contarOQue = "itens" then ToolResult.contagem dfF.rows.length
      else ToolResult.erro ToolError.contarOQueInvalido

/-! ### Spec-side auxiliary counts for the join-exactness claim -/

/-- The join-key value of every row of a table. -/
def keyVals (df : DataFrame) : List Cell :=
  df.rows.map (fun r => getCell df.cols r KEY)

/-- How many rows of `df` carry join key `k`. -/
def countKey (df : DataFrame) (k : Cell) : Nat :=
  (df.rows.filter (fun r => getCell df.cols r KEY == k)).length

/-- The distinct keys present in both tables. -/
def sharedKeys (h i : DataFrame) : List Cell :=
  (keyVals h).dedup.filter (fun k => (keyVals i).contains k)

/-- The row count the claim predicts: the sum over shared keys of the number
    of item rows for that key. -/
def specRowCount (h i : DataFrame) : Nat :=
  ((sharedKeys h i).map (fun k => countKey i k)).sum

/-- The inner join the pipeline builds just before the two `fillna` steps
    (source line 228, after lines 199-226). -/
def preJoin (dfC dfI : DataFrame) : DataFrame :=
  mergeInner (castColToStr (normalizeHeader dfC) KEY)
    (cleanItens (castColToStr (normalizeHeader dfC) KEY)
      (castColToStr (normalizeItens dfI) KEY))
    KEY

/-- The null-fill rule of source lines 229-230, per column name: missing
    `ITEM`/`FORNECEDOR` become the sentinel, every other missing cell
    becomes zero, non-missing cells are untouched. -/
def fillRule (name : String) (x : Cell) : Cell :=
  if x = Cell.na then
    (if name = "ITEM" ∨ name = "FORNECEDOR" then Cell.str sentinel else Cell.num 0)
  else x

/-! ### Concrete fixtures -/

/-- The initial shared table, `pd.DataFrame()`: no columns, no rows. -/
def emptyTable : DataFrame := ⟨[], []⟩

/-- Fixture: a header table whose join key is duplicated. -/
def dupKeyHeader : DataFrame := ⟨["CHAVE DE ACESSO"], [[Cell.str "1"], [Cell.str "1"]]⟩

/-- Fixture: an item table with a single row for the duplicated key. -/
def dupKeyItens : DataFrame :=
  ⟨["CHAVE DE ACESSO", "X"], [[Cell.str "1", Cell.str "a"]]⟩

/-- Fixture: item rows realising group sums A:100 (split 60+40), B:50,
    C:200, D:75. -/
def topNTable : DataFrame := ⟨["ITEM", "VALOR TOTAL"],
  [[Cell.str "A", Cell.num 60], [Cell.str "B", Cell.num 50],
   [Cell.str "C", Cell.num 200], [Cell.str "D", Cell.num 75],
   [Cell.str "A", Cell.num 40]]⟩

/-- Fixture: a table with a tie on the maximal unit value (rows 1 and 2). -/
def tieTable : DataFrame := ⟨["ITEM", "FORNECEDOR", "VALOR UNITÁRIO"],
  [[Cell.str "a", Cell.str "f1", Cell.num 5],
   [Cell.str "b", Cell.str "f2", Cell.num 9],
   [Cell.str "c", Cell.str "f3", Cell.num 9]]⟩

/-- Fixture: a table for the counting tool (two notes, three item rows). -/
def countTable : DataFrame := ⟨["CHAVE DE ACESSO", "FORNECEDOR"],
  [[Cell.str "k1", Cell.str "Acme Corp"],
   [Cell.str "k1", Cell.str "Acme Corp"],
   [Cell.str "k2", Cell.str "Beta"]]⟩

/-- Fixture: a raw header table with unnormalized column names, an alias
    column, a missing supplier and one malformed numeric cell. -/
def demoHeader : DataFrame :=
  ⟨[" chave de acesso ", "RAZÃO SOCIAL EMITENTE", "VALOR NOTA FISCAL", "STATUS"],
   [[Cell.str "k1", Cell.str "Acme", Cell.str "10,5", Cell.str "ok"],
    [Cell.str "k2", Cell.na, Cell.str "abc", Cell.str "ok2"]]⟩

/-- Fixture: a raw item table sharing the non-key column `STATUS` with the
    header, with a missing description and an unmatched key `k3`. -/
def demoItens : DataFrame :=
  ⟨["CHAVE DE ACESSO", "DESCRIÇÃO DO PRODUTO/SERVIÇO", "QUANTIDADE", "STATUS"],
   [[Cell.str "k1", Cell.str "Parafuso", Cell.str "2", Cell.str "is1"],
    [Cell.str "k2", Cell.na, Cell.str "x", Cell.str "is2"],
    [Cell.str "k3", Cell.str "Porca", Cell.str "1", Cell.str "is3"]]⟩

/-- Fixture: a one-column numeric table (already-coerced cells). -/
def numericColTable : DataFrame := ⟨["VALOR TOTAL"], [[Cell.num 3], [Cell.na]]⟩

/-! ### Lookup lemmas -/

theorem getCell_nil_row (cols : List String) (c : String) : getCell cols [] c = Cell.na := by
  unfold getCell
  cases h : findCol cols c with
  | none => rfl
  | some i => cases i <;> rfl

theorem findCol_cons (c₀ : String) (cs : List String) (c : String) :
    findCol (c₀ :: cs) c = if c₀ = c then some 0 else (findCol cs c).map (· + 1) := rfl

theorem getCell_cons (c₀ : String) (cols : List String) (x : Cell) (xs : List Cell)
    (c : String) :
    getCell (c₀ :: cols) (x :: xs) c = if c₀ = c then x else getCell cols xs c := by
  unfold getCell
  rw [findCol_cons]
  by_cases h : c₀ = c
  · simp [h]
  · simp only [h, if_false]
    cases hf : findCol cols c with
    | none => simp
    | some i => simp [List.getD]

theorem findCol_eq_none (cols : List String) (c : String) (h : c ∉ cols) :
    findCol cols c = none := by
  induction cols with
  | nil => rfl
  | cons c₀ cs ih =>
    unfold findCol
    have h₀ : c₀ ≠ c := fun he => h (he ▸ List.mem_cons_self c₀ cs)
    simp only [h₀, if_false]
    rw [ih (fun hm => h (List.mem_cons_of_mem c₀ hm))]
    rfl

theorem getCell_not_mem (cols : List String) (r : List Cell) (c : String) (h : c ∉ cols) :
    getCell cols r c = Cell.na := by
  unfold getCell
  rw [findCol_eq_none cols c h]

theorem getCell_append_left (cols₁ cols₂ : List String) (r₁ r₂ : List Cell) (c : String)
    (hmem : c ∈ cols₁) (hlen : r₁.length = cols₁.length) :
    getCell (cols₁ ++ cols₂) (r₁ ++ r₂) c = getCell cols₁ r₁ c := by
  induction cols₁ generalizing r₁ with
  | nil => simp at hmem
  | cons c₀ cs ih =>
    cases r₁ with
    | nil => simp at hlen
    | cons x xs =>
      simp only [List.cons_append, getCell_cons]
      by_cases h : c₀ = c
      · simp [h]
      · simp only [h, if_false]
        have hmem' : c ∈ cs := by
          cases List.mem_cons.mp hmem with
          | inl he => exact absurd he.symm h
          | inr hm => exact hm
        exact ih xs hmem' (by simpa using hlen)

theorem getCell_zipfilter (P : String → Bool) (cols : List String) (r : List Cell)
    (c : String) (hP : P c = true) :
    getCell (cols.filter P) (((cols.zip r).filter (fun p => P p.1)).map Prod.snd) c =
      getCell cols r c := by
  induction cols generalizing r with
  | nil => rfl
  | cons c₀ cs ih =>
    cases r with
    | nil =>
      simp only [List.zip_nil_right, List.filter_nil, List.map_nil]
      rw [getCell_nil_row, getCell_nil_row]
    | cons x xs =>
      by_cases h0 : P c₀
      · simp only [List.zip_cons_cons, List.filter_cons, h0, if_true, List.map_cons,
          getCell_cons]
        by_cases h : c₀ = c
        · simp [h]
        · simp only [h, if_false]
          exact ih xs
      · have hne : c₀ ≠ c := fun he => by rw [he, hP] at h0; exact h0 rfl
        simp only [List.zip_cons_cons, List.filter_cons, h0, if_false, getCell_cons,
          hne]
        exact ih xs

theorem getCell_zipmap (g : String → Cell → Cell) (cols : List String) (r : List Cell)
    (c : String) (hlen : cols.length ≤ r.length) (hmem : c ∈ cols) :
    getCell cols ((cols.zip r).map (fun p => g p.1 p.2)) c = g c (getCell cols r c) := by
  induction cols generalizing r with
  | nil => simp at hmem
  | cons c₀ cs ih =>
    cases r with
    | nil => simp at hlen
    | cons x xs =>
      simp only [List.zip_cons_cons, List.map_cons, getCell_cons]
      by_cases h : c₀ = c
      · simp [h]
      · simp only [h, if_false]
        have hmem' : c ∈ cs := by
          cases List.mem_cons.mp hmem with
          | inl he => exact absurd he.symm h
          | inr hm => exact hm
        exact ih xs (by simpa using Nat.le_of_succ_le_succ (by simpa using hlen)) hmem'

theorem getCell_map (f : Cell → Cell) (cols : List String) (r : List Cell) (c : String)
    (hlen : cols.length ≤ r.length) (hmem : c ∈ cols) :
    getCell cols (r.map f) c = f (getCell cols r c) := by
  induction cols generalizing r with
  | nil => simp at hmem
  | cons c₀ cs ih =>
    cases r with
    | nil => simp at hlen
    | cons x xs =>
      simp only [List.map_cons, getCell_cons]
      by_cases h : c₀ = c
      · simp [h]
      · simp only [h, if_false]
        have hmem' : c ∈ cs := by
          cases List.mem_cons.mp hmem with
          | inl he => exact absurd he.symm h
          | inr hm => exact hm
        exact ih xs (by simpa using Nat.le_of_succ_le_succ (by simpa using hlen)) hmem'

theorem length_zipfilter (P : String → Bool) (cols : List String) (r : List Cell)
    (hlen : r.length = cols.length) :
    (((cols.zip r).filter (fun p => P p.1)).map Prod.snd).length = (cols.filter P).length := by
  induction cols generalizing r with
  | nil => simp
  | cons c₀ cs ih =>
    cases r with
    | nil => simp at hlen
    | cons x xs =>
      simp only [List.zip_cons_cons, List.filter_cons]
      by_cases h0 : P c₀
      · simp only [h0, if_true, List.map_cons, List.length_cons, List.length_map]
        have := ih xs (by simpa using hlen)
        simp only [List.length_map] at this
        omega
      · simp only [h0, if_false]
        exact ih xs (by simpa using hlen)

/-! ### Well-formedness preservation -/

theorem WF_mapCol (df : DataFrame) (c : String) (f : Cell → Cell) (h : df.WF) :
    (df.mapCol c f).WF := by
  intro r hr
  simp only [DataFrame.mapCol, List.mem_map] at hr
  obtain ⟨r₀, hr₀, rfl⟩ := hr
  simp [DataFrame.mapCol, List.length_zip, h r₀ hr₀]

theorem WF_normalizeCols (df : DataFrame) (h : df.WF) : df.normalizeCols.WF := by
  intro r hr
  simp only [DataFrame.normalizeCols] at hr ⊢
  rw [List.length_map]
  exact h r hr

theorem WF_renameCol (df : DataFrame) (src tgt : String) (h : df.WF) :
    (df.renameCol src tgt).WF := by
  intro r hr
  simp only [DataFrame.renameCol] at hr ⊢
  rw [List.length_map]
  exact h r hr

theorem WF_coerceNumericColumn (df : DataFrame) (c : String) (h : df.WF) :
    (coerceNumericColumn df c).WF := by
  unfold coerceNumericColumn
  by_cases hc : c ∈ df.cols
  · simpa [hc] using WF_mapCol df c coerceCell h
  · simpa [hc] using h

theorem WF_castColToStr (df : DataFrame) (c : String) (h : df.WF) :
    (castColToStr df c).WF :=
  WF_mapCol df c _ h

theorem WF_normalizeHeader (df : DataFrame) (h : df.WF) : (normalizeHeader df).WF :=
  WF_coerceNumericColumn _ _ (WF_renameCol _ _ _ (WF_normalizeCols df h))

theorem WF_normalizeItens (df : DataFrame) (h : df.WF) : (normalizeItens df).WF := by
  unfold normalizeItens
  simp only [List.foldl]
  exact WF_coerceNumericColumn _ _ (WF_coerceNumericColumn _ _ (WF_coerceNumericColumn _ _
    (WF_renameCol _ _ _ (WF_normalizeCols df h))))

theorem WF_dropCols (df : DataFrame) (toDrop : List String) (h : df.WF) :
    (df.dropCols toDrop).WF := by
  intro r hr
  simp only [DataFrame.dropCols, List.mem_map] at hr
  obtain ⟨r₀, hr₀, rfl⟩ := hr
  simp only [DataFrame.dropCols]
  exact length_zipfilter (fun s => !(toDrop.contains s)) df.cols r₀ (h r₀ hr₀)

theorem WF_cleanItens (hK iK : DataFrame) (h : iK.WF) : (cleanItens hK iK).WF :=
  WF_dropCols _ _ h

theorem mem_mergeInner_rows (h i : DataFrame) (key : String) (row : List Cell) :
    row ∈ (mergeInner h i key).rows ↔
      ∃ hr ∈ h.rows, ∃ ir ∈ i.rows,
        getCell i.cols ir key = getCell h.cols hr key ∧
        row = hr ++ ((i.cols.zip ir).filter (fun p => p.1 != key)).map Prod.snd := by
  simp only [mergeInner, List.mem_flatten, List.mem_map, List.mem_filter, beq_iff_eq]
  constructor
  · rintro ⟨s, ⟨hr, hhr, rfl⟩, hrow⟩
    simp only [List.mem_map, List.mem_filter, beq_iff_eq] at hrow
    obtain ⟨ir, ⟨hir, hkey⟩, rfl⟩ := hrow
    exact ⟨hr, hhr, ir, hir, hkey, rfl⟩
  · rintro ⟨hr, hhr, ir, hir, hkey, rfl⟩
    refine ⟨_, ⟨hr, hhr, rfl⟩, ?_⟩
    simp only [List.mem_map, List.mem_filter, beq_iff_eq]
    exact ⟨ir, ⟨hir, hkey⟩, rfl⟩

theorem WF_mergeInner (h i : DataFrame) (key : String) (hh : h.WF) (hi : i.WF) :
    (mergeInner h i key).WF := by
  intro r hr
  rw [mem_mergeInner_rows] at hr
  obtain ⟨hr₀, hhr, ir, hir, _, rfl⟩ := hr
  show _ = (h.cols ++ i.cols.filter (fun c => c != key)).length
  have h1 := hh hr₀ hhr
  have h2 := length_zipfilter (fun s => s != key) i.cols ir (hi ir hir)
  rw [List.length_append, List.length_append, h1, h2]

theorem mergeInner_rows_length (h i : DataFrame) (key : String) :
    (mergeInner h i key).rows.length =
      (h.rows.map (fun hr => (i.rows.filter
        (fun ir => getCell i.cols ir key == getCell h.cols hr key)).length)).sum := by
  simp [mergeInner, List.length_flatten, List.map_map, Function.comp_def]

theorem WF_fillCols (df : DataFrame) (targets : List String) (v : Cell) (h : df.WF) :
    (fillCols df targets v).WF := by
  intro r hr
  simp only [fillCols, List.mem_map] at hr
  obtain ⟨r₀, hr₀, rfl⟩ := hr
  simp [fillCols, List.length_zip, h r₀ hr₀]

theorem WF_fillAllNa (df : DataFrame) (v : Cell) (h : df.WF) : (fillAllNa df v).WF := by
  intro r hr
  simp only [fillAllNa, List.mem_map] at hr
  obtain ⟨r₀, hr₀, rfl⟩ := hr
  simp [fillAllNa, h r₀ hr₀]

theorem WF_fillConsolidado (m : DataFrame) (h : m.WF) : (fillConsolidado m).WF :=
  WF_fillAllNa _ _ (WF_fillCols _ _ _ h)

theorem fillConsolidado_cols (m : DataFrame) : (fillConsolidado m).cols = m.cols := rfl

theorem fillConsolidado_rows_length (m : DataFrame) :
    (fillConsolidado m).rows.length = m.rows.length := by
  simp [fillConsolidado, fillAllNa, fillCols]

/-- Rows are unchanged by `mapCol c f` when `f` fixes every cell that sits in
    a column named `c`. -/
theorem zipmap_ite_id (cols : List String) (r : List Cell) (c : String) (f : Cell → Cell)
    (hlen : r.length = cols.length)
    (hfix : ∀ j, j < cols.length → cols.getD j "" = c →
      f (r.getD j Cell.na) = r.getD j Cell.na) :
    (cols.zip r).map (fun p => if p.1 = c then f p.2 else p.2) = r := by
  induction cols generalizing r with
  | nil =>
    cases r with
    | nil => rfl
    | cons x xs => simp at hlen
  | cons c₀ cs ih =>
    cases r with
    | nil => simp at hlen
    | cons x xs =>
      simp only [List.zip_cons_cons, List.map_cons]
      congr 1
      · by_cases h : c₀ = c
        · simpa [h] using hfix 0 (by simp) (by simpa using h)
        · simp [h]
      · exact ih xs (by simpa using hlen)
          (fun j hj hc => hfix (j + 1) (by simpa using Nat.succ_lt_succ hj) (by simpa using hc))

/-! ### Claim C3 (empty-state guard) -/

/-- C3 counterexample: with the shared table empty and a non-coercible `n`,
    `obter_top_n_itens_por` returns the invalid-`n` error, not the
    empty-dataframe error — the `int(n)` coercion runs before the empty-state
    check, so the empty-state check is not performed first. -/
theorem C3_empty_guard_counterexample :
    emptyTable.isEmpty = true ∧
    obterTopNItensPor emptyTable "valor" (PyVal.vstr "abc") "maior" =
      ToolResult.erro (ToolError.parametroNInvalido (PyVal.vstr "abc")) ∧
    obterTopNItensPor emptyTable "valor" (PyVal.vstr "abc") "maior" ≠
      ToolResult.erro ToolError.dataFrameVazio := by
  decide

/-- C3 amended: with the shared table empty or not loaded, every tool returns
    the empty-dataframe error for every assignment of its other arguments,
    except that in `obter_top_n_itens_por` and
    `obter_top_n_fornecedores_por_valor` the coercion of `n` is checked first:
    a non-coercible `n` yields the invalid-`n` error instead, and only a
    coercible `n` reaches the empty-state check. -/
theorem C3_empty_guard_amended (df : DataFrame) (hdf : df.isEmpty = true) :
    calcularValorTotalGasto df = ToolResult.erro ToolError.dataFrameVazio ∧
    (∀ ordenacao, encontrarItemMaisCaroOuBarato df ordenacao =
      ToolResult.erro ToolError.dataFrameVazio) ∧
    (∀ contarOQue fornecedor, contarNotasOuItens df contarOQue fornecedor =
      ToolResult.erro ToolError.dataFrameVazio) ∧
    (∀ metrica n ordem, (pyToInt n).isSome = true →
      obterTopNItensPor df metrica n ordem = ToolResult.erro ToolError.dataFrameVazio) ∧
    (∀ n ordem, (pyToInt n).isSome = true →
      obterTopNFornecedoresPorValor df n ordem = ToolResult.erro ToolError.dataFrameVazio) ∧
    (∀ metrica n ordem, pyToInt n = none →
      obterTopNItensPor df metrica n ordem =
        ToolResult.erro (ToolError.parametroNInvalido n) ∧
      obterTopNFornecedoresPorValor df n ordem =
        ToolResult.erro (ToolError.parametroNInvalido n)) := by
  refine ⟨?_, ?_, ?_, ?_, ?_, ?_⟩
  · simp [calcularValorTotalGasto, hdf]
  · intro ordenacao
    simp [encontrarItemMaisCaroOuBarato, hdf]
  · intro contarOQue fornecedor
    simp [contarNotasOuItens, hdf]
  · intro metrica n ordem hn
    cases hpt : pyToInt n with
    | none => rw [hpt] at hn; simp at hn
    | some nv => simp [obterTopNItensPor, hpt, hdf]
  · intro n ordem hn
    cases hpt : pyToInt n with
    | none => rw [hpt] at hn; simp at hn
    | some nv => simp [obterTopNFornecedoresPorValor, hpt, hdf]
  · intro metrica n ordem hn
    constructor
    · simp [obterTopNItensPor, hn]
    · simp [obterTopNFornecedoresPorValor, hn]

/-- C3 witness: the amended theorem applied to the initial empty table. -/
theorem C3_empty_guard_witness :
    calcularValorTotalGasto emptyTable = ToolResult.erro ToolError.dataFrameVazio ∧
    encontrarItemMaisCaroOuBarato emptyTable "caro" =
      ToolResult.erro ToolError.dataFrameVazio ∧
    contarNotasOuItens emptyTable "notas" none = ToolResult.erro ToolError.dataFrameVazio ∧
    obterTopNItensPor emptyTable "valor" (PyVal.vint 5) "maior" =
      ToolResult.erro ToolError.dataFrameVazio ∧
    obterTopNFornecedoresPorValor emptyTable (PyVal.vint 5) "maior" =
      ToolResult.erro ToolError.dataFrameVazio ∧
    obterTopNFornecedoresPorValor emptyTable PyVal.vnone "maior" =
      ToolResult.erro (ToolError.parametroNInvalido PyVal.vnone) := by
  have h := C3_empty_guard_amended emptyTable (by decide)
  exact ⟨h.1, h.2.1 "caro", h.2.2.1 "notas" none,
    h.2.2.2.1 "valor" (PyVal.vint 5) "maior" (by decide),
    h.2.2.2.2.1 (PyVal.vint 5) "maior" (by decide),
    (h.2.2.2.2.2 "valor" PyVal.vnone "maior" (by decide)).2⟩

/-! ### Claim C4 (invalid enumerated parameters) -/

/-- C4 counterexample: an out-of-enum `ordenacao` does not produce a
    structured error — `encontrar_item_mais_caro_ou_barato` silently takes
    the `idxmin` branch and returns the cheapest row. -/
theorem C4_enum_counterexample :
    encontrarItemMaisCaroOuBarato tieTable "qualquer" =
      ToolResult.itemInfo (Cell.str "a") (Cell.str "f1") (Cell.num 5) "mais barato" ∧
    (∀ e : ToolError, encontrarItemMaisCaroOuBarato tieTable "qualquer" ≠
      ToolResult.erro e) := by
  have h1 : encontrarItemMaisCaroOuBarato tieTable "qualquer" =
      ToolResult.itemInfo (Cell.str "a") (Cell.str "f1") (Cell.num 5) "mais barato" := by
    decide
  refine ⟨h1, fun e hco => ?_⟩
  rw [h1] at hco
  exact ToolResult.noConfusion hco

/-- C4 amended: a non-loaded-enum `metrica` or `contar_o_que`, and a
    non-coercible `n`, each yield a structured error naming the offending
    parameter before any aggregation; but an out-of-enum `ordenacao` is
    silently treated as `barato` and an out-of-enum `ordem` silently as
    `menor` — those two are not rejected. -/
theorem C4_invalid_parameter_amended (df : DataFrame) (hdf : df.isEmpty = false) :
    (∀ metrica n nv ordem, pyToInt n = some nv →
      metrica ≠ "quantidade" → metrica ≠ "valor" →
      obterTopNItensPor df metrica n ordem = ToolResult.erro ToolError.metricaInvalida) ∧
    (∀ contarOQue, contarOQue ≠ "notas" → contarOQue ≠ "itens" →
      contarNotasOuItens df contarOQue none = ToolResult.erro ToolError.contarOQueInvalido) ∧
    (∀ n metrica ordem, pyToInt n = none →
      obterTopNItensPor df metrica n ordem =
        ToolResult.erro (ToolError.parametroNInvalido n) ∧
      obterTopNFornecedoresPorValor df n ordem =
        ToolResult.erro (ToolError.parametroNInvalido n)) ∧
    (∀ ordenacao, ordenacao ≠ "caro" →
      encontrarItemMaisCaroOuBarato df ordenacao =
        encontrarItemMaisCaroOuBarato df "barato") ∧
    (∀ n metrica ordem, ordem ≠ "maior" →
      obterTopNItensPor df metrica n ordem = obterTopNItensPor df metrica n "menor" ∧
      obterTopNFornecedoresPorValor df n ordem =
        obterTopNFornecedoresPorValor df n "menor") := by
  refine ⟨?_, ?_, ?_, ?_, ?_⟩
  · intro metrica n nv ordem hn hm1 hm2
    simp [obterTopNItensPor, hn, hdf, hm1, hm2]
  · intro contarOQue h1 h2
    simp [contarNotasOuItens, hdf, h1, h2]
  · intro n metrica ordem hn
    exact ⟨by simp [obterTopNItensPor, hn], by simp [obterTopNFornecedoresPorValor, hn]⟩
  · intro ordenacao hord
    simp [encontrarItemMaisCaroOuBarato, hord]
  · intro n metrica ordem hord
    exact ⟨by simp [obterTopNItensPor, hord], by simp [obterTopNFornecedoresPorValor, hord]⟩

/-- C4 witness: the amended theorem applied to a concrete loaded table. -/
theorem C4_invalid_parameter_witness :
    obterTopNItensPor tieTable "media" (PyVal.vint 3) "maior" =
      ToolResult.erro ToolError.metricaInvalida ∧
    contarNotasOuItens tieTable "zzz" none = ToolResult.erro ToolError.contarOQueInvalido ∧
    obterTopNItensPor tieTable "valor" (PyVal.vstr "abc") "maior" =
      ToolResult.erro (ToolError.parametroNInvalido (PyVal.vstr "abc")) ∧
    encontrarItemMaisCaroOuBarato tieTable "x" = encontrarItemMaisCaroOuBarato tieTable "barato" ∧
    obterTopNItensPor tieTable "valor" (PyVal.vint 2) "desc" =
      obterTopNItensPor tieTable "valor" (PyVal.vint 2) "menor" := by
  have h := C4_invalid_parameter_amended tieTable (by decide)
  exact ⟨h.1 "media" (PyVal.vint 3) 3 "maior" (by decide) (by decide) (by decide),
    h.2.1 "zzz" (by decide) (by decide),
    (h.2.2.1 (PyVal.vstr "abc") "valor" "maior" (by decide)).1,
    h.2.2.2.1 "x" (by decide),
    (h.2.2.2.2 (PyVal.vint 2) "valor" "desc" (by decide)).1⟩

/-! ### Claim C5 (numeric coercion) -/

/-- C5: numeric coercion replaces the comma separator and parses
    (`"1234,56"` ↦ `1234.56`), maps unparseable text to the missing marker,
    is idempotent, fixes already-numeric columns, and silently skips
    designated columns absent from the table. -/
theorem C5_numeric_coercion :
    coerceCell (Cell.str "1234,56") = Cell.num (123456/100) ∧
    coerceCell (Cell.str "abc") = Cell.na ∧
    (∀ x : Cell, coerceCell (coerceCell x) = coerceCell x) ∧
    (∀ df c, c ∉ df.cols → coerceNumericColumn df c = df) ∧
    (∀ df c, df.WF →
      (∀ r ∈ df.rows, ∀ j, j < df.cols.length → df.cols.getD j "" = c →
        (∃ q, r.getD j Cell.na = Cell.num q) ∨ r.getD j Cell.na = Cell.na) →
      coerceNumericColumn df c = df) := by
  refine ⟨?_, by decide, ?_, ?_, ?_⟩
  · have h : coerceCell (Cell.str "1234,56") =
        Cell.num ((digitsToNat ['1','2','3','4'] : Rat) +
          (digitsToNat ['5','6'] : Rat) / (10 : Rat) ^ (['5','6'].length)) := rfl
    have h1 : digitsToNat ['1','2','3','4'] = 1234 := by decide
    have h2 : digitsToNat ['5','6'] = 56 := by decide
    rw [h, h1, h2]
    norm_num
  · intro x
    cases x with
    | na => rfl
    | num q => rfl
    | str s =>
      simp only [coerceCell]
      cases parseDecimal (commaToDot s) with
      | none => rfl
      | some q => rfl
  · intro df c hc
    simp [coerceNumericColumn, hc]
  · intro df c hwf hfix
    unfold coerceNumericColumn
    by_cases hc : c ∈ df.cols
    · simp only [hc, if_true]
      have hrows : df.rows.map (fun r =>
          (df.cols.zip r).map (fun p => if p.1 = c then coerceCell p.2 else p.2)) =
          df.rows := by
        have hcongr : ∀ r ∈ df.rows,
            (df.cols.zip r).map (fun p => if p.1 = c then coerceCell p.2 else p.2) = id r := by
          intro r hr
          show _ = r
          apply zipmap_ite_id df.cols r c coerceCell (hwf r hr)
          intro j hj hcj
          rcases hfix r hr j hj hcj with ⟨q, hq⟩ | hna
          · rw [hq]; rfl
          · rw [hna]; rfl
        rw [List.map_congr_left hcongr, List.map_id]
      show { df with rows := df.rows.map _ } = df
      rw [hrows]
    · simp [hc]

/-- C5 witness: the hypothesis-bearing parts of the coercion theorem applied
    to concrete tables (absent designated column; already-numeric column). -/
theorem C5_numeric_coercion_witness :
    coerceNumericColumn countTable "VALOR NOTA FISCAL" = countTable ∧
    coerceNumericColumn numericColTable "VALOR TOTAL" = numericColTable := by
  refine ⟨C5_numeric_coercion.2.2.2.1 countTable "VALOR NOTA FISCAL" (by decide),
    C5_numeric_coercion.2.2.2.2 numericColTable "VALOR TOTAL" (by decide) ?_⟩
  intro r hr j hj hcj
  simp only [numericColTable, List.length_cons, List.length_nil] at hj
  have hj0 : j = 0 := by omega
  subst hj0
  simp only [numericColTable, List.mem_cons, List.not_mem_nil, or_false] at hr
  rcases hr with rfl | rfl
  · exact Or.inl ⟨3, rfl⟩
  · exact Or.inr rfl

/-! ### Claim C10 (falsy supplier argument means no filter) -/

/-- C10: a `fornecedor` of `None` or the empty string applies no filter at
    all (the call behaves exactly like the unfiltered one and can never
    produce the no-supplier-found error), and the no-supplier-found error is
    reachable only for a non-empty supplier string whose case-insensitive
    substring filter matches zero rows of a non-empty table. -/
theorem C10_falsy_fornecedor (df : DataFrame) (contarOQue : String) :
    contarNotasOuItens df contarOQue (some "") = contarNotasOuItens df contarOQue none ∧
    (∀ s, contarNotasOuItens df contarOQue none ≠
      ToolResult.erro (ToolError.fornecedorNaoEncontrado s)) ∧
    (∀ s, contarNotasOuItens df contarOQue (some "") ≠
      ToolResult.erro (ToolError.fornecedorNaoEncontrado s)) ∧
    (∀ f s, contarNotasOuItens df contarOQue f =
        ToolResult.erro (ToolError.fornecedorNaoEncontrado s) →
      f = some s ∧ s ≠ "" ∧ df.isEmpty = false ∧
      (df.rows.filter (fun r =>
        cellContainsCI (getCell df.cols r "FORNECEDOR") s)).isEmpty = true) := by
  refine ⟨rfl, ?_, ?_, ?_⟩
  · intro s h
    unfold contarNotasOuItens at h
    simp only [Option.getD] at h
    split_ifs at h <;> simp_all
  · intro s h
    unfold contarNotasOuItens at h
    simp only [Option.getD] at h
    split_ifs at h <;> simp_all
  · intro f s h
    unfold contarNotasOuItens at h
    cases f with
    | none =>
      simp only [Option.getD] at h
      split_ifs at h <;> simp_all
    | some t =>
      simp only [Option.getD_some] at h
      by_cases ht : t = ""
      · subst ht
        split_ifs at h <;> simp_all
      · split_ifs at h <;> simp_all [DataFrame.isEmpty]

/-- C10 witness: the reachability clause applied at a concrete table and a
    supplier string matching no rows. -/
theorem C10_falsy_fornecedor_witness :
    (some "ZZZ" : Option String) = some "ZZZ" ∧ "ZZZ" ≠ "" ∧
    countTable.isEmpty = false ∧
    (countTable.rows.filter (fun r =>
      cellContainsCI (getCell countTable.cols r "FORNECEDOR") "ZZZ")).isEmpty = true :=
  (C10_falsy_fornecedor countTable "notas").2.2.2 (some "ZZZ") "ZZZ" (by decide)

/-! ### Claim C8 (stable extremum) -/

theorem idxmaxFrom_cons_none (rest : List (Option Rat)) :
    idxmaxFrom (Option.none :: rest) =
      (idxmaxFrom rest).map (fun p => (p.1 + 1, p.2)) := rfl

theorem idxmaxFrom_cons_some_none (xv : Rat) (rest : List (Option Rat))
    (h : idxmaxFrom rest = none) :
    idxmaxFrom (Option.some xv :: rest) = some (0, xv) := by
  rw [idxmaxFrom, h]

theorem idxmaxFrom_cons_some_some (xv : Rat) (rest : List (Option Rat)) (pi : Nat)
    (pv : Rat) (h : idxmaxFrom rest = some (pi, pv)) :
    idxmaxFrom (Option.some xv :: rest) =
      if xv < pv then some (pi + 1, pv) else some (0, xv) := by
  rw [idxmaxFrom, h]

theorem idxminFrom_cons_none (rest : List (Option Rat)) :
    idxminFrom (Option.none :: rest) =
      (idxminFrom rest).map (fun p => (p.1 + 1, p.2)) := rfl

theorem idxminFrom_cons_some_none (xv : Rat) (rest : List (Option Rat))
    (h : idxminFrom rest = none) :
    idxminFrom (Option.some xv :: rest) = some (0, xv) := by
  rw [idxminFrom, h]

theorem idxminFrom_cons_some_some (xv : Rat) (rest : List (Option Rat)) (pi : Nat)
    (pv : Rat) (h : idxminFrom rest = some (pi, pv)) :
    idxminFrom (Option.some xv :: rest) =
      if pv < xv then some (pi + 1, pv) else some (0, xv) := by
  rw [idxminFrom, h]

theorem idxmaxFrom_eq_none (vals : List (Option Rat)) (h : idxmaxFrom vals = none) :
    ∀ (j : Nat) (w : Rat), vals[j]? = some (some w) → False := by
  induction vals with
  | nil => intro j w hj; simp at hj
  | cons a rest ih =>
    cases a with
    | none =>
      rw [idxmaxFrom_cons_none] at h
      have hr : idxmaxFrom rest = none := by
        cases hx : idxmaxFrom rest with
        | none => rfl
        | some p => rw [hx] at h; simp at h
      intro j w hj
      cases j with
      | zero => simp at hj
      | succ j' => exact ih hr j' w (by simpa using hj)
    | some xv =>
      cases hx : idxmaxFrom rest with
      | none => rw [idxmaxFrom_cons_some_none xv rest hx] at h; simp at h
      | some p =>
        rw [idxmaxFrom_cons_some_some xv rest p.1 p.2 (by rw [hx])] at h
        split at h <;> simp at h

theorem idxmaxFrom_spec (vals : List (Option Rat)) (i : Nat) (v : Rat)
    (h : idxmaxFrom vals = some (i, v)) :
    vals[i]? = some (some v) ∧
    (∀ (j : Nat) (w : Rat), vals[j]? = some (some w) → w ≤ v) ∧
    (∀ (j : Nat), j < i → ∀ (w : Rat), vals[j]? = some (some w) → w < v) := by
  induction vals generalizing i v with
  | nil => simp [idxmaxFrom] at h
  | cons a rest ih =>
    cases a with
    | none =>
      rw [idxmaxFrom_cons_none] at h
      cases hr : idxmaxFrom rest with
      | none => rw [hr] at h; simp at h
      | some p =>
        obtain ⟨pi, pv⟩ := p
        rw [hr] at h
        simp only [Option.map_some', Option.some.injEq, Prod.mk.injEq] at h
        obtain ⟨hi, hv⟩ := h
        obtain ⟨ha, hb, hc⟩ := ih pi pv hr
        subst hi hv
        refine ⟨by simpa using ha, ?_, ?_⟩
        · intro j w hj
          cases j with
          | zero => simp at hj
          | succ j' => exact hb j' w (by simpa using hj)
        · intro j hji w hj
          cases j with
          | zero => simp at hj
          | succ j' => exact hc j' (by omega) w (by simpa using hj)
    | some xv =>
      cases hr : idxmaxFrom rest with
      | none =>
        rw [idxmaxFrom_cons_some_none xv rest hr] at h
        simp only [Option.some.injEq, Prod.mk.injEq] at h
        obtain ⟨hi, hv⟩ := h
        subst hi hv
        refine ⟨by simp, ?_, ?_⟩
        · intro j w hj
          cases j with
          | zero => simp at hj; subst hj; exact le_rfl
          | succ j' =>
            exact absurd hj
              (fun hj => idxmaxFrom_eq_none rest hr j' w (by simpa using hj))
        · intro j hji w hj
          omega
      | some p =>
        obtain ⟨pi, pv⟩ := p
        rw [idxmaxFrom_cons_some_some xv rest pi pv hr] at h
        obtain ⟨ha, hb, hc⟩ := ih pi pv hr
        by_cases hcmp : xv < pv
        · rw [if_pos hcmp] at h
          simp only [Option.some.injEq, Prod.mk.injEq] at h
          obtain ⟨hi, hv⟩ := h
          subst hi hv
          refine ⟨by simpa using ha, ?_, ?_⟩
          · intro j w hj
            cases j with
            | zero => simp at hj; subst hj; exact le_of_lt hcmp
            | succ j' => exact hb j' w (by simpa using hj)
          · intro j hji w hj
            cases j with
            | zero => simp at hj; subst hj; exact hcmp
            | succ j' => exact hc j' (by omega) w (by simpa using hj)
        · rw [if_neg hcmp] at h
          simp only [Option.some.injEq, Prod.mk.injEq] at h
          obtain ⟨hi, hv⟩ := h
          subst hi hv
          refine ⟨by simp, ?_, ?_⟩
          · intro j w hj
            cases j with
            | zero => simp at hj; subst hj; exact le_rfl
            | succ j' => exact le_trans (hb j' w (by simpa using hj)) (not_lt.mp hcmp)
          · intro j hji w hj
            omega

theorem idxminFrom_eq_none (vals : List (Option Rat)) (h : idxminFrom vals = none) :
    ∀ (j : Nat) (w : Rat), vals[j]? = some (some w) → False := by
  induction vals with
  | nil => intro j w hj; simp at hj
  | cons a rest ih =>
    cases a with
    | none =>
      rw [idxminFrom_cons_none] at h
      have hr : idxminFrom rest = none := by
        cases hx : idxminFrom rest with
        | none => rfl
        | some p => rw [hx] at h; simp at h
      intro j w hj
      cases j with
      | zero => simp at hj
      | succ j' => exact ih hr j' w (by simpa using hj)
    | some xv =>
      cases hx : idxminFrom rest with
      | none => rw [idxminFrom_cons_some_none xv rest hx] at h; simp at h
      | some p =>
        rw [idxminFrom_cons_some_some xv rest p.1 p.2 (by rw [hx])] at h
        split at h <;> simp at h

theorem idxminFrom_spec (vals : List (Option Rat)) (i : Nat) (v : Rat)
    (h : idxminFrom vals = some (i, v)) :
    vals[i]? = some (some v) ∧
    (∀ (j : Nat) (w : Rat), vals[j]? = some (some w) → v ≤ w) ∧
    (∀ (j : Nat), j < i → ∀ (w : Rat), vals[j]? = some (some w) → v < w) := by
  induction vals generalizing i v with
  | nil => simp [idxminFrom] at h
  | cons a rest ih =>
    cases a with
    | none =>
      rw [idxminFrom_cons_none] at h
      cases hr : idxminFrom rest with
      | none => rw [hr] at h; simp at h
      | some p =>
        obtain ⟨pi, pv⟩ := p
        rw [hr] at h
        simp only [Option.map_some', Option.some.injEq, Prod.mk.injEq] at h
        obtain ⟨hi, hv⟩ := h
        obtain ⟨ha, hb, hc⟩ := ih pi pv hr
        subst hi hv
        refine ⟨by simpa using ha, ?_, ?_⟩
        · intro j w hj
          cases j with
          | zero => simp at hj
          | succ j' => exact hb j' w (by simpa using hj)
        · intro j hji w hj
          cases j with
          | zero => simp at hj
          | succ j' => exact hc j' (by omega) w (by simpa using hj)
    | some xv =>
      cases hr : idxminFrom rest with
      | none =>
        rw [idxminFrom_cons_some_none xv rest hr] at h
        simp only [Option.some.injEq, Prod.mk.injEq] at h
        obtain ⟨hi, hv⟩ := h
        subst hi hv
        refine ⟨by simp, ?_, ?_⟩
        · intro j w hj
          cases j with
          | zero => simp at hj; subst hj; exact le_rfl
          | succ j' =>
            exact absurd hj
              (fun hj => idxminFrom_eq_none rest hr j' w (by simpa using hj))
        · intro j hji w hj
          omega
      | some p =>
        obtain ⟨pi, pv⟩ := p
        rw [idxminFrom_cons_some_some xv rest pi pv hr] at h
        obtain ⟨ha, hb, hc⟩ := ih pi pv hr
        by_cases hcmp : pv < xv
        · rw [if_pos hcmp] at h
          simp only [Option.some.injEq, Prod.mk.injEq] at h
          obtain ⟨hi, hv⟩ := h
          subst hi hv
          refine ⟨by simpa using ha, ?_, ?_⟩
          · intro j w hj
            cases j with
            | zero => simp at hj; subst hj; exact le_of_lt hcmp
            | succ j' => exact hb j' w (by simpa using hj)
          · intro j hji w hj
            cases j with
            | zero => simp at hj; subst hj; exact hcmp
            | succ j' => exact hc j' (by omega) w (by simpa using hj)
        · rw [if_neg hcmp] at h
          simp only [Option.some.injEq, Prod.mk.injEq] at h
          obtain ⟨hi, hv⟩ := h
          subst hi hv
          refine ⟨by simp, ?_, ?_⟩
          · intro j w hj
            cases j with
            | zero => simp at hj; subst hj; exact le_rfl
            | succ j' => exact le_trans (not_lt.mp hcmp) (hb j' w (by simpa using hj))
          · intro j hji w hj
            omega

/-- C8: on a non-empty table with at least one numeric unit value,
    `encontrar_item_mais_caro_ou_barato` with `caro` returns the first row
    in table order attaining the maximal `VALOR UNITÁRIO` (stable argmax:
    each value of every row is ≤ it and every earlier row is strictly below it),
    and symmetrically `barato` returns the first row attaining the minimal
    value. -/
theorem C8_extreme_tiebreak (df : DataFrame) (hne : df.isEmpty = false)
    (hnum : ∃ r ∈ df.rows,
      (cellNumOpt (getCell df.cols r "VALOR UNITÁRIO")).isSome = true) :
    (∃ i row v, df.rows[i]? = some row ∧
      cellNumOpt (getCell df.cols row "VALOR UNITÁRIO") = some v ∧
      (∀ (j : Nat) (r' : List Cell), df.rows[j]? = some r' →
        ∀ w, cellNumOpt (getCell df.cols r' "VALOR UNITÁRIO") = some w → w ≤ v) ∧
      (∀ (j : Nat), j < i → ∀ (r' : List Cell), df.rows[j]? = some r' →
        ∀ w, cellNumOpt (getCell df.cols r' "VALOR UNITÁRIO") = some w → w < v) ∧
      encontrarItemMaisCaroOuBarato df "caro" =
        ToolResult.itemInfo (getCell df.cols row "ITEM")
          (getCell df.cols row "FORNECEDOR")
          (getCell df.cols row "VALOR UNITÁRIO") "mais caro") ∧
    (∃ i row v, df.rows[i]? = some row ∧
      cellNumOpt (getCell df.cols row "VALOR UNITÁRIO") = some v ∧
      (∀ (j : Nat) (r' : List Cell), df.rows[j]? = some r' →
        ∀ w, cellNumOpt (getCell df.cols r' "VALOR UNITÁRIO") = some w → v ≤ w) ∧
      (∀ (j : Nat), j < i → ∀ (r' : List Cell), df.rows[j]? = some r' →
        ∀ w, cellNumOpt (getCell df.cols r' "VALOR UNITÁRIO") = some w → v < w) ∧
      encontrarItemMaisCaroOuBarato df "barato" =
        ToolResult.itemInfo (getCell df.cols row "ITEM")
          (getCell df.cols row "FORNECEDOR")
          (getCell df.cols row "VALOR UNITÁRIO") "mais barato") := by
  obtain ⟨r0, hr0, hq0⟩ := hnum
  obtain ⟨q0, hq0'⟩ := Option.isSome_iff_exists.mp hq0
  obtain ⟨j0, hj0⟩ := List.mem_iff_getElem?.mp hr0
  have hvj : (df.rows.map
      (fun r => cellNumOpt (getCell df.cols r "VALOR UNITÁRIO")))[j0]? =
      some (some q0) := by
    rw [List.getElem?_map, hj0]
    simp [hq0']
  constructor
  · cases hmax : idxmaxFrom (df.rows.map
        (fun r => cellNumOpt (getCell df.cols r "VALOR UNITÁRIO"))) with
    | none => exact (idxmaxFrom_eq_none _ hmax j0 q0 hvj).elim
    | some p =>
      obtain ⟨pi, pv⟩ := p
      obtain ⟨ha, hb, hc⟩ := idxmaxFrom_spec _ pi pv hmax
      rw [List.getElem?_map] at ha
      cases hrow : df.rows[pi]? with
      | none => rw [hrow] at ha; simp at ha
      | some row =>
        rw [hrow] at ha
        simp only [Option.map_some', Option.some.injEq] at ha
        refine ⟨pi, row, pv, hrow, ha, ?_, ?_, ?_⟩
        · intro j r' hj w hw
          apply hb j w
          rw [List.getElem?_map, hj]
          simp [hw]
        · intro j hji r' hj w hw
          apply hc j hji w
          rw [List.getElem?_map, hj]
          simp [hw]
        · simp [encontrarItemMaisCaroOuBarato, hne, hmax, hrow]
  · cases hmin : idxminFrom (df.rows.map
        (fun r => cellNumOpt (getCell df.cols r "VALOR UNITÁRIO"))) with
    | none => exact (idxminFrom_eq_none _ hmin j0 q0 hvj).elim
    | some p =>
      obtain ⟨pi, pv⟩ := p
      obtain ⟨ha, hb, hc⟩ := idxminFrom_spec _ pi pv hmin
      rw [List.getElem?_map] at ha
      cases hrow : df.rows[pi]? with
      | none => rw [hrow] at ha; simp at ha
      | some row =>
        rw [hrow] at ha
        simp only [Option.map_some', Option.some.injEq] at ha
        refine ⟨pi, row, pv, hrow, ha, ?_, ?_, ?_⟩
        · intro j r' hj w hw
          apply hb j w
          rw [List.getElem?_map, hj]
          simp [hw]
        · intro j hji r' hj w hw
          apply hc j hji w
          rw [List.getElem?_map, hj]
          simp [hw]
        · simp [encontrarItemMaisCaroOuBarato, hne, hmin, hrow]

/-- C8 witness: the tie-break theorem applied to the concrete tie table
    (rows 1 and 2 share the maximal unit value 9; row 1 must win). -/
theorem C8_extreme_tiebreak_witness :
    (∃ i row v, tieTable.rows[i]? = some row ∧
      cellNumOpt (getCell tieTable.cols row "VALOR UNITÁRIO") = some v ∧
      (∀ (j : Nat) (r' : List Cell), tieTable.rows[j]? = some r' →
        ∀ w, cellNumOpt (getCell tieTable.cols r' "VALOR UNITÁRIO") = some w → w ≤ v) ∧
      (∀ (j : Nat), j < i → ∀ (r' : List Cell), tieTable.rows[j]? = some r' →
        ∀ w, cellNumOpt (getCell tieTable.cols r' "VALOR UNITÁRIO") = some w → w < v) ∧
      encontrarItemMaisCaroOuBarato tieTable "caro" =
        ToolResult.itemInfo (getCell tieTable.cols row "ITEM")
          (getCell tieTable.cols row "FORNECEDOR")
          (getCell tieTable.cols row "VALOR UNITÁRIO") "mais caro") ∧
    (∃ i row v, tieTable.rows[i]? = some row ∧
      cellNumOpt (getCell tieTable.cols row "VALOR UNITÁRIO") = some v ∧
      (∀ (j : Nat) (r' : List Cell), tieTable.rows[j]? = some r' →
        ∀ w, cellNumOpt (getCell tieTable.cols r' "VALOR UNITÁRIO") = some w → v ≤ w) ∧
      (∀ (j : Nat), j < i → ∀ (r' : List Cell), tieTable.rows[j]? = some r' →
        ∀ w, cellNumOpt (getCell tieTable.cols r' "VALOR UNITÁRIO") = some w → v < w) ∧
      encontrarItemMaisCaroOuBarato tieTable "barato" =
        ToolResult.itemInfo (getCell tieTable.cols row "ITEM")
          (getCell tieTable.cols row "FORNECEDOR")
          (getCell tieTable.cols row "VALOR UNITÁRIO") "mais barato") :=
  C8_extreme_tiebreak tieTable (by decide)
    ⟨[Cell.str "a", Cell.str "f1", Cell.num 5], by decide, by decide⟩

/-! ### Claim C2 (null-fill contract) -/

theorem zipmapF_getD (F : String × Cell → Cell) (cols : List String) (r : List Cell)
    (j : Nat) (hj : j < cols.length) (hlen : r.length = cols.length) :
    ((cols.zip r).map F).getD j Cell.na = F (cols.getD j "", r.getD j Cell.na) := by
  induction cols generalizing r j with
  | nil => simp at hj
  | cons c₀ cs ih =>
    cases r with
    | nil => simp at hlen
    | cons x xs =>
      cases j with
      | zero => rfl
      | succ j' =>
        simp only [List.zip_cons_cons, List.map_cons, List.getD_cons_succ]
        exact ih xs j' (by simpa using hj) (by simpa using hlen)

theorem map_getD_lt (f : Cell → Cell) (l : List Cell) (j : Nat) (hj : j < l.length) :
    (l.map f).getD j Cell.na = f (l.getD j Cell.na) := by
  induction l generalizing j with
  | nil => simp at hj
  | cons x xs ih =>
    cases j with
    | zero => rfl
    | succ j' =>
      simp only [List.map_cons, List.getD_cons_succ]
      exact ih j' (by simpa using hj)

/-- Unpacking a successful run of `_load_and_preprocess_data`: the branch
    taken, the published consolidated table, and the final input states. -/
theorem consolidado_eq (dfC dfI : DataFrame) (c : DataFrame)
    (hc : (loadAndPreprocessData dfC dfI).consolidado = some c) :
    c = fillConsolidado (preJoin dfC dfI) ∧
    (loadAndPreprocessData dfC dfI).cabecalho = castColToStr (normalizeHeader dfC) KEY ∧
    (loadAndPreprocessData dfC dfI).itens = castColToStr (normalizeItens dfI) KEY ∧
    KEY ∈ (normalizeHeader dfC).cols ∧ KEY ∈ (normalizeItens dfI).cols := by
  by_cases hkey : KEY ∈ (normalizeHeader dfC).cols ∧ KEY ∈ (normalizeItens dfI).cols
  · unfold loadAndPreprocessData at hc ⊢
    rw [if_pos hkey] at hc ⊢
    simp only [Option.some.injEq] at hc
    exact ⟨hc.symm, rfl, rfl, hkey.1, hkey.2⟩
  · unfold loadAndPreprocessData at hc
    rw [if_neg hkey] at hc
    simp at hc

/-- The two fill steps, composed, act on one cell per the fill rule. -/
theorem fill_chain_eq (name : String) (x : Cell) :
    (if (if ["ITEM", "FORNECEDOR"].contains name && x == Cell.na then Cell.str sentinel
        else x) == Cell.na then Cell.num 0
     else (if ["ITEM", "FORNECEDOR"].contains name && x == Cell.na then Cell.str sentinel
        else x)) = fillRule name x := by
  by_cases hna : x = Cell.na
  · subst hna
    by_cases hn : name = "ITEM" ∨ name = "FORNECEDOR"
    · have hco : (["ITEM", "FORNECEDOR"].contains name) = true := by
        rcases hn with h | h <;> simp [h]
      simp [fillRule, hco, hn, sentinel]
    · have hco : (["ITEM", "FORNECEDOR"].contains name) = false := by
        push_neg at hn
        simp [hn.1, hn.2]
      simp [fillRule, hco, hn]
  · have hbeq : (x == Cell.na) = false := by simp [hna]
    simp [fillRule, hna, hbeq]

theorem fillConsolidado_no_na (m : DataFrame) :
    ∀ row ∈ (fillConsolidado m).rows, ∀ x ∈ row, x ≠ Cell.na := by
  intro row hrow x hx
  simp only [fillConsolidado, fillAllNa, List.mem_map] at hrow
  obtain ⟨r₀, _, rfl⟩ := hrow
  simp only [List.mem_map] at hx
  obtain ⟨y, _, rfl⟩ := hx
  by_cases hy : y = Cell.na
  · simp [hy]
  · simp [hy]

/-- C2: whenever consolidation succeeds, the published table has no missing
    cell anywhere, and cell-by-cell it is the value of the inner join where that
    was present, the sentinel string where a cell of a column named `ITEM` or
    `FORNECEDOR` was missing, and zero where any other cell was missing. -/
theorem C2_null_fill (dfC dfI : DataFrame) (hwfH : dfC.WF) (hwfI : dfI.WF)
    (c : DataFrame) (hc : (loadAndPreprocessData dfC dfI).consolidado = some c) :
    (∀ row ∈ c.rows, ∀ x ∈ row, x ≠ Cell.na) ∧
    c.cols = (preJoin dfC dfI).cols ∧
    (∀ (ri j : Nat) (row : List Cell), c.rows[ri]? = some row →
      j < (preJoin dfC dfI).cols.length →
      ∃ mrow, (preJoin dfC dfI).rows[ri]? = some mrow ∧
        row.getD j Cell.na =
          fillRule ((preJoin dfC dfI).cols.getD j "") (mrow.getD j Cell.na)) := by
  obtain ⟨hceq, -, -, -, -⟩ := consolidado_eq dfC dfI c hc
  subst hceq
  have hwfM : (preJoin dfC dfI).WF :=
    WF_mergeInner _ _ _ (WF_castColToStr _ _ (WF_normalizeHeader _ hwfH))
      (WF_cleanItens _ _ (WF_castColToStr _ _ (WF_normalizeItens _ hwfI)))
  refine ⟨fillConsolidado_no_na _, rfl, ?_⟩
  intro ri j row hrow hj
  set m := preJoin dfC dfI with hm
  have hrows : (fillConsolidado m).rows =
      m.rows.map (fun r =>
        ((m.cols.zip r).map (fun p =>
          if ["ITEM", "FORNECEDOR"].contains p.1 && p.2 == Cell.na then Cell.str sentinel
          else p.2)).map (fun x => if x == Cell.na then Cell.num 0 else x)) := by
    simp [fillConsolidado, fillAllNa, fillCols, List.map_map, Function.comp_def]
  rw [hrows, List.getElem?_map] at hrow
  cases hmr : m.rows[ri]? with
  | none => rw [hmr] at hrow; simp at hrow
  | some mrow =>
    rw [hmr] at hrow
    simp only [Option.map_some', Option.some.injEq] at hrow
    refine ⟨mrow, rfl, ?_⟩
    subst hrow
    have hmlen : mrow.length = m.cols.length :=
      hwfM mrow (List.getElem?_mem hmr)
    have hzlen : ((m.cols.zip mrow).map (fun p =>
        if ["ITEM", "FORNECEDOR"].contains p.1 && p.2 == Cell.na then Cell.str sentinel
        else p.2)).length = m.cols.length := by
      simp [List.length_zip, hmlen]
    rw [map_getD_lt _ _ j (by rw [hzlen]; exact hj)]
    rw [zipmapF_getD (fun p =>
      if ["ITEM", "FORNECEDOR"].contains p.1 && p.2 == Cell.na then Cell.str sentinel
      else p.2) m.cols mrow j hj hmlen]
    exact fill_chain_eq (m.cols.getD j "") (mrow.getD j Cell.na)

/-- C2 witness: the null-fill theorem applied to the concrete demo upload
    (missing supplier, missing description, two unparseable numeric cells). -/
theorem C2_null_fill_witness :
    ∃ c, (loadAndPreprocessData demoHeader demoItens).consolidado = some c ∧
      (∀ row ∈ c.rows, ∀ x ∈ row, x ≠ Cell.na) := by
  refine ⟨fillConsolidado (preJoin demoHeader demoItens), ?_, ?_⟩
  · rfl
  · exact (C2_null_fill demoHeader demoItens (by decide) (by decide) _ rfl).1

/-! ### Claim C6 (column precedence) -/

/-- C6: when a non-key column name survives normalization in both tables, it
    is dropped from the item table before the join; every joined row carries
    the value of the header table for it (alongside the join key of the header row),
    and the published row carries that header value passed through the
    null-fill rule. -/
theorem C6_column_precedence (dfC dfI : DataFrame) (hwfH : dfC.WF) (hwfI : dfI.WF)
    (c : DataFrame) (hc : (loadAndPreprocessData dfC dfI).consolidado = some c)
    (cname : String) (hkne : cname ≠ KEY)
    (hinH : cname ∈ (loadAndPreprocessData dfC dfI).cabecalho.cols)
    (hinI : cname ∈ (loadAndPreprocessData dfC dfI).itens.cols) :
    cname ∉ (cleanItens (loadAndPreprocessData dfC dfI).cabecalho
      (loadAndPreprocessData dfC dfI).itens).cols ∧
    (∀ row ∈ (preJoin dfC dfI).rows,
      ∃ hr ∈ (loadAndPreprocessData dfC dfI).cabecalho.rows,
        getCell (preJoin dfC dfI).cols row KEY =
          getCell (loadAndPreprocessData dfC dfI).cabecalho.cols hr KEY ∧
        getCell (preJoin dfC dfI).cols row cname =
          getCell (loadAndPreprocessData dfC dfI).cabecalho.cols hr cname) ∧
    (∀ row ∈ c.rows,
      ∃ hr ∈ (loadAndPreprocessData dfC dfI).cabecalho.rows,
        getCell c.cols row cname =
          fillRule cname
            (getCell (loadAndPreprocessData dfC dfI).cabecalho.cols hr cname)) := by
  obtain ⟨hceq, hcab, hit, hkH, hkI⟩ := consolidado_eq dfC dfI c hc
  rw [hcab] at hinH ⊢
  rw [hit] at hinI ⊢
  set hK := castColToStr (normalizeHeader dfC) KEY with hhK
  set iK := castColToStr (normalizeItens dfI) KEY with hiK
  have hwfHK : hK.WF := WF_castColToStr _ _ (WF_normalizeHeader _ hwfH)
  have hwfIK : iK.WF := WF_castColToStr _ _ (WF_normalizeItens _ hwfI)
  have hKcols : hK.cols = (normalizeHeader dfC).cols := rfl
  have hkeyH : KEY ∈ hK.cols := by rw [hKcols]; exact hkH
  have hdrop : cname ∉ (cleanItens hK iK).cols := by
    intro hmem
    simp only [cleanItens, DataFrame.dropCols, List.mem_filter] at hmem
    have hIn : cname ∈ iK.cols.filter (fun c => hK.cols.contains c && c != KEY) := by
      rw [List.mem_filter]
      refine ⟨hinI, ?_⟩
      have h1 : hK.cols.contains cname = true := List.elem_iff.mpr hinH
      simp [h1, hkne, hinH]
    have h2 := hmem.2
    simp only [Bool.not_eq_true] at h2
    have h3 : (iK.cols.filter (fun c => hK.cols.contains c && c != KEY)).contains cname =
        true := by
      simpa using hIn
    rw [h3] at h2
    exact Bool.noConfusion h2
  have hjoin : ∀ row ∈ (preJoin dfC dfI).rows,
      ∃ hr ∈ hK.rows,
        getCell (preJoin dfC dfI).cols row KEY = getCell hK.cols hr KEY ∧
        getCell (preJoin dfC dfI).cols row cname = getCell hK.cols hr cname := by
    intro row hrow
    have hrow' := (mem_mergeInner_rows hK (cleanItens hK iK) KEY row).mp hrow
    obtain ⟨hr, hhr, ir, hir, hkeq, rfl⟩ := hrow'
    have hlen : hr.length = hK.cols.length := hwfHK hr hhr
    refine ⟨hr, hhr, ?_, ?_⟩
    · exact getCell_append_left hK.cols _ hr _ KEY hkeyH hlen
    · exact getCell_append_left hK.cols _ hr _ cname hinH hlen
  refine ⟨hdrop, hjoin, ?_⟩
  subst hceq
  intro row hrow
  set m := preJoin dfC dfI with hm
  have hwfM : m.WF := WF_mergeInner _ _ _ hwfHK (WF_cleanItens _ _ hwfIK)
  have hrows : (fillConsolidado m).rows =
      m.rows.map (fun r =>
        ((m.cols.zip r).map (fun p =>
          if ["ITEM", "FORNECEDOR"].contains p.1 && p.2 == Cell.na then Cell.str sentinel
          else p.2)).map (fun x => if x == Cell.na then Cell.num 0 else x)) := by
    simp [fillConsolidado, fillAllNa, fillCols, List.map_map, Function.comp_def]
  rw [hrows] at hrow
  simp only [List.mem_map] at hrow
  obtain ⟨mrow, hmrow, rfl⟩ := hrow
  obtain ⟨hr, hhr, -, hcval⟩ := hjoin mrow hmrow
  have hmlen : mrow.length = m.cols.length := hwfM mrow hmrow
  have hcmem : cname ∈ m.cols := by
    show cname ∈ hK.cols ++ _
    exact List.mem_append_left _ hinH
  have hzlen : m.cols.length ≤ ((m.cols.zip mrow).map (fun p =>
      if ["ITEM", "FORNECEDOR"].contains p.1 && p.2 == Cell.na then Cell.str sentinel
      else p.2)).length := by
    simp [List.length_zip, hmlen]
  refine ⟨hr, hhr, ?_⟩
  have hcolsc : (fillConsolidado m).cols = m.cols := rfl
  rw [hcolsc]
  rw [getCell_map (fun x => if x == Cell.na then Cell.num 0 else x) m.cols _ cname hzlen hcmem]
  rw [getCell_zipmap (fun n x =>
    if ["ITEM", "FORNECEDOR"].contains n && x == Cell.na then Cell.str sentinel else x)
    m.cols mrow cname (by omega) hcmem]
  rw [hcval]
  exact fill_chain_eq cname (getCell hK.cols hr cname)

/-- C6 witness: the precedence theorem applied to the demo upload, whose
    `STATUS` column exists on both sides. -/
theorem C6_column_precedence_witness :
    "STATUS" ∉ (cleanItens (loadAndPreprocessData demoHeader demoItens).cabecalho
      (loadAndPreprocessData demoHeader demoItens).itens).cols ∧
    (∀ row ∈ (preJoin demoHeader demoItens).rows,
      ∃ hr ∈ (loadAndPreprocessData demoHeader demoItens).cabecalho.rows,
        getCell (preJoin demoHeader demoItens).cols row KEY =
          getCell (loadAndPreprocessData demoHeader demoItens).cabecalho.cols hr KEY ∧
        getCell (preJoin demoHeader demoItens).cols row "STATUS" =
          getCell (loadAndPreprocessData demoHeader demoItens).cabecalho.cols hr "STATUS") ∧
    (∀ row ∈ (fillConsolidado (preJoin demoHeader demoItens)).rows,
      ∃ hr ∈ (loadAndPreprocessData demoHeader demoItens).cabecalho.rows,
        getCell (fillConsolidado (preJoin demoHeader demoItens)).cols row "STATUS" =
          fillRule "STATUS"
            (getCell (loadAndPreprocessData demoHeader demoItens).cabecalho.cols
              hr "STATUS")) :=
  C6_column_precedence demoHeader demoItens (by decide) (by decide)
    (fillConsolidado (preJoin demoHeader demoItens)) rfl "STATUS"
    (by decide) (by decide) (by decide)

/-! ### Claim C9 (the preprocessing step mutates its inputs) -/

theorem coerceNumericColumn_cols (df : DataFrame) (c : String) :
    (coerceNumericColumn df c).cols = df.cols := by
  unfold coerceNumericColumn
  split <;> rfl

theorem foldl_coerce_cols (cns : List String) (df : DataFrame) :
    (cns.foldl coerceNumericColumn df).cols = df.cols := by
  induction cns generalizing df with
  | nil => rfl
  | cons c₀ cs ih => rw [List.foldl_cons, ih, coerceNumericColumn_cols]

theorem foldl_coerce_WF (cns : List String) (df : DataFrame) (h : df.WF) :
    (cns.foldl coerceNumericColumn df).WF := by
  induction cns generalizing df with
  | nil => exact h
  | cons c₀ cs ih => exact ih _ (WF_coerceNumericColumn df c₀ h)

theorem mapCol_rows_length (df : DataFrame) (c : String) (f : Cell → Cell) :
    (df.mapCol c f).rows.length = df.rows.length := by
  simp [DataFrame.mapCol]

theorem coerceNumericColumn_rows_length (df : DataFrame) (c : String) :
    (coerceNumericColumn df c).rows.length = df.rows.length := by
  unfold coerceNumericColumn
  split
  · exact mapCol_rows_length df c coerceCell
  · rfl

theorem foldl_coerce_rows_length (cns : List String) (df : DataFrame) :
    (cns.foldl coerceNumericColumn df).rows.length = df.rows.length := by
  induction cns generalizing df with
  | nil => rfl
  | cons c₀ cs ih => rw [List.foldl_cons, ih, coerceNumericColumn_rows_length]

/-- `mapCol` leaves every cell of a column of a different name unchanged. -/
theorem mapCol_getD_ne (df : DataFrame) (cn : String) (f : Cell → Cell) (hwf : df.WF)
    (ri j : Nat) (row row' : List Cell)
    (hrow : df.rows[ri]? = some row) (hrow' : (df.mapCol cn f).rows[ri]? = some row')
    (hj : j < df.cols.length) (hne : df.cols.getD j "" ≠ cn) :
    row'.getD j Cell.na = row.getD j Cell.na := by
  simp only [DataFrame.mapCol] at hrow'
  rw [List.getElem?_map, hrow] at hrow'
  simp only [Option.map_some', Option.some.injEq] at hrow'
  subst hrow'
  rw [zipmapF_getD (fun p => if p.1 = cn then f p.2 else p.2) df.cols row j hj
    (hwf row (List.getElem?_mem hrow))]
  exact if_neg hne

theorem coerce_getD_ne (df : DataFrame) (cn : String) (hwf : df.WF)
    (ri j : Nat) (row row' : List Cell)
    (hrow : df.rows[ri]? = some row)
    (hrow' : (coerceNumericColumn df cn).rows[ri]? = some row')
    (hj : j < df.cols.length) (hne : df.cols.getD j "" ≠ cn) :
    row'.getD j Cell.na = row.getD j Cell.na := by
  unfold coerceNumericColumn at hrow'
  by_cases hc : cn ∈ df.cols
  · rw [if_pos hc] at hrow'
    exact mapCol_getD_ne df cn coerceCell hwf ri j row row' hrow hrow' hj hne
  · rw [if_neg hc] at hrow'
    rw [hrow] at hrow'
    simp only [Option.some.injEq] at hrow'
    rw [hrow']

theorem foldl_coerce_getD_ne :
    ∀ (cns : List String) (df : DataFrame), df.WF →
    ∀ (ri j : Nat) (row row' : List Cell),
    df.rows[ri]? = some row →
    (cns.foldl coerceNumericColumn df).rows[ri]? = some row' →
    j < df.cols.length → df.cols.getD j "" ∉ cns →
    row'.getD j Cell.na = row.getD j Cell.na
  | [], df, _, ri, j, row, row', hrow, hrow', _, _ => by
      simp only [List.foldl_nil] at hrow'
      rw [hrow] at hrow'
      simp only [Option.some.injEq] at hrow'
      rw [hrow']
  | c₀ :: cs, df, hwf, ri, j, row, row', hrow, hrow', hj, hne => by
      simp only [List.foldl_cons] at hrow'
      have hri : ri < (coerceNumericColumn df c₀).rows.length := by
        have h1 : ri < (cs.foldl coerceNumericColumn (coerceNumericColumn df c₀)).rows.length :=
          (List.getElem?_eq_some_iff.mp hrow').1
        rwa [foldl_coerce_rows_length] at h1
      obtain ⟨rowm, hrowm⟩ :
          ∃ rowm, (coerceNumericColumn df c₀).rows[ri]? = some rowm := by
        cases hx : (coerceNumericColumn df c₀).rows[ri]? with
        | none => rw [List.getElem?_eq_none_iff] at hx; omega
        | some rowm => exact ⟨rowm, rfl⟩
      have step1 : rowm.getD j Cell.na = row.getD j Cell.na :=
        coerce_getD_ne df c₀ hwf ri j row rowm hrow hrowm hj
          (fun he => hne (he ▸ List.mem_cons_self c₀ cs))
      have step2 : row'.getD j Cell.na = rowm.getD j Cell.na := by
        apply foldl_coerce_getD_ne cs (coerceNumericColumn df c₀)
          (WF_coerceNumericColumn df c₀ hwf) ri j rowm row' hrowm hrow'
        · rw [coerceNumericColumn_cols]; exact hj
        · rw [coerceNumericColumn_cols]
          exact fun hm => hne (List.mem_cons_of_mem c₀ hm)
      rw [step2, step1]

/-- C9 counterexample: the preprocessing step is not a pure transform — the
    header and item tables of the callerbles come back mutated (here their column
    names already differ). -/
theorem C9_purity_counterexample :
    (loadAndPreprocessData demoHeader demoItens).cabecalho ≠ demoHeader ∧
    (loadAndPreprocessData demoHeader demoItens).itens ≠ demoItens := by
  decide

/-- C9 amended: the step mutates the two input tables in place, but the
    mutation is limited: row and column counts are preserved, and on a
    successful consolidation every cell of the final header table outside
    the `VALOR NOTA FISCAL` and `CHAVE DE ACESSO` columns, and every cell of
    the final item table outside the `QUANTIDADE`, `VALOR UNITÁRIO`,
    `VALOR TOTAL` and `CHAVE DE ACESSO` columns, equals the corresponding
    input cell. -/
theorem C9_mutation_frame_amended (dfC dfI : DataFrame) (hwfH : dfC.WF) (hwfI : dfI.WF)
    (c : DataFrame) (hc : (loadAndPreprocessData dfC dfI).consolidado = some c) :
    (loadAndPreprocessData dfC dfI).cabecalho.rows.length = dfC.rows.length ∧
    (loadAndPreprocessData dfC dfI).cabecalho.cols.length = dfC.cols.length ∧
    (loadAndPreprocessData dfC dfI).itens.rows.length = dfI.rows.length ∧
    (loadAndPreprocessData dfC dfI).itens.cols.length = dfI.cols.length ∧
    (∀ (ri j : Nat) (row row' : List Cell),
      dfC.rows[ri]? = some row →
      (loadAndPreprocessData dfC dfI).cabecalho.rows[ri]? = some row' →
      j < (loadAndPreprocessData dfC dfI).cabecalho.cols.length →
      (loadAndPreprocessData dfC dfI).cabecalho.cols.getD j "" ≠ "VALOR NOTA FISCAL" →
      (loadAndPreprocessData dfC dfI).cabecalho.cols.getD j "" ≠ KEY →
      row'.getD j Cell.na = row.getD j Cell.na) ∧
    (∀ (ri j : Nat) (row row' : List Cell),
      dfI.rows[ri]? = some row →
      (loadAndPreprocessData dfC dfI).itens.rows[ri]? = some row' →
      j < (loadAndPreprocessData dfC dfI).itens.cols.length →
      (loadAndPreprocessData dfC dfI).itens.cols.getD j "" ∉
        (["QUANTIDADE", "VALOR UNITÁRIO", "VALOR TOTAL"] : List String) →
      (loadAndPreprocessData dfC dfI).itens.cols.getD j "" ≠ KEY →
      row'.getD j Cell.na = row.getD j Cell.na) := by
  obtain ⟨-, hcab, hit, -, -⟩ := consolidado_eq dfC dfI c hc
  rw [hcab, hit]
  set X := (dfC.normalizeCols).renameCol "RAZÃO SOCIAL EMITENTE" "FORNECEDOR" with hX
  set Y := (dfI.normalizeCols).renameCol "DESCRIÇÃO DO PRODUTO/SERVIÇO" "ITEM" with hY
  have hXrows : X.rows = dfC.rows := rfl
  have hYrows : Y.rows = dfI.rows := rfl
  have hXcols : X.cols.length = dfC.cols.length := by
    simp [hX, DataFrame.renameCol, DataFrame.normalizeCols]
  have hYcols : Y.cols.length = dfI.cols.length := by
    simp [hY, DataFrame.renameCol, DataFrame.normalizeCols]
  have hwfX : X.WF := WF_renameCol _ _ _ (WF_normalizeCols _ hwfH)
  have hwfY : Y.WF := WF_renameCol _ _ _ (WF_normalizeCols _ hwfI)
  have hHdef : normalizeHeader dfC = (["VALOR NOTA FISCAL"] : List String).foldl
      coerceNumericColumn X := rfl
  have hIdef : normalizeItens dfI = (["QUANTIDADE", "VALOR UNITÁRIO",
      "VALOR TOTAL"] : List String).foldl coerceNumericColumn Y := rfl
  refine ⟨?_, ?_, ?_, ?_, ?_, ?_⟩
  · show (castColToStr (normalizeHeader dfC) KEY).rows.length = _
    rw [castColToStr, mapCol_rows_length, hHdef, foldl_coerce_rows_length, hXrows]
  · show (castColToStr (normalizeHeader dfC) KEY).cols.length = _
    show (normalizeHeader dfC).cols.length = _
    rw [hHdef, foldl_coerce_cols, hXcols]
  · show (castColToStr (normalizeItens dfI) KEY).rows.length = _
    rw [castColToStr, mapCol_rows_length, hIdef, foldl_coerce_rows_length, hYrows]
  · show (castColToStr (normalizeItens dfI) KEY).cols.length = _
    show (normalizeItens dfI).cols.length = _
    rw [hIdef, foldl_coerce_cols, hYcols]
  · intro ri j row row' hrow hrow' hj hne1 hne2
    have hcolseq : (castColToStr (normalizeHeader dfC) KEY).cols = X.cols := by
      show (normalizeHeader dfC).cols = X.cols
      rw [hHdef, foldl_coerce_cols]
    rw [hcolseq] at hj hne1 hne2
    have hjX : j < X.cols.length := hj
    have hnorm : normalizeHeader dfC = (["VALOR NOTA FISCAL"] : List String).foldl
        coerceNumericColumn X := hHdef
    have hriN : ri < (normalizeHeader dfC).rows.length := by
      have h1 : ri < (castColToStr (normalizeHeader dfC) KEY).rows.length :=
        (List.getElem?_eq_some_iff.mp hrow').1
      rwa [castColToStr, mapCol_rows_length] at h1
    obtain ⟨rowm, hrowm⟩ :
        ∃ rowm, (normalizeHeader dfC).rows[ri]? = some rowm := by
      cases hx : (normalizeHeader dfC).rows[ri]? with
      | none => rw [List.getElem?_eq_none_iff] at hx; omega
      | some rowm => exact ⟨rowm, rfl⟩
    have hwfN : (normalizeHeader dfC).WF := WF_normalizeHeader _ hwfH
    have step2 : row'.getD j Cell.na = rowm.getD j Cell.na := by
      apply mapCol_getD_ne (normalizeHeader dfC) KEY _ hwfN ri j rowm row' hrowm hrow'
      · show j < (normalizeHeader dfC).cols.length
        rw [hnorm, foldl_coerce_cols]; exact hjX
      · show (normalizeHeader dfC).cols.getD j "" ≠ KEY
        rw [hnorm, foldl_coerce_cols]; exact hne2
    have step1 : rowm.getD j Cell.na = row.getD j Cell.na := by
      apply foldl_coerce_getD_ne (["VALOR NOTA FISCAL"] : List String) X hwfX ri j row rowm
        (by rw [hXrows]; exact hrow) (by rw [← hnorm]; exact hrowm) hjX
      simp only [List.mem_cons, List.not_mem_nil, or_false]
      exact hne1
    rw [step2, step1]
  · intro ri j row row' hrow hrow' hj hne1 hne2
    have hcolseq : (castColToStr (normalizeItens dfI) KEY).cols = Y.cols := by
      show (normalizeItens dfI).cols = Y.cols
      rw [hIdef, foldl_coerce_cols]
    rw [hcolseq] at hj hne1 hne2
    have hjY : j < Y.cols.length := hj
    have hriN : ri < (normalizeItens dfI).rows.length := by
      have h1 : ri < (castColToStr (normalizeItens dfI) KEY).rows.length :=
        (List.getElem?_eq_some_iff.mp hrow').1
      rwa [castColToStr, mapCol_rows_length] at h1
    obtain ⟨rowm, hrowm⟩ :
        ∃ rowm, (normalizeItens dfI).rows[ri]? = some rowm := by
      cases hx : (normalizeItens dfI).rows[ri]? with
      | none => rw [List.getElem?_eq_none_iff] at hx; omega
      | some rowm => exact ⟨rowm, rfl⟩
    have hwfN : (normalizeItens dfI).WF := WF_normalizeItens _ hwfI
    have step2 : row'.getD j Cell.na = rowm.getD j Cell.na := by
      apply mapCol_getD_ne (normalizeItens dfI) KEY _ hwfN ri j rowm row' hrowm hrow'
      · show j < (normalizeItens dfI).cols.length
        rw [hIdef, foldl_coerce_cols]; exact hjY
      · show (normalizeItens dfI).cols.getD j "" ≠ KEY
        rw [hIdef, foldl_coerce_cols]; exact hne2
    have step1 : rowm.getD j Cell.na = row.getD j Cell.na := by
      apply foldl_coerce_getD_ne (["QUANTIDADE", "VALOR UNITÁRIO", "VALOR TOTAL"] :
        List String) Y hwfY ri j row rowm (by rw [hYrows]; exact hrow)
        (by rw [← hIdef]; exact hrowm) hjY
      exact hne1
    rw [step2, step1]

/-- C9 witness: the frame theorem applied to the demo upload; the untouched
    `STATUS` cell of header row 0 is checked explicitly. -/
theorem C9_mutation_frame_witness :
    (loadAndPreprocessData demoHeader demoItens).cabecalho.rows.length =
      demoHeader.rows.length ∧
    (loadAndPreprocessData demoHeader demoItens).itens.cols.length =
      demoItens.cols.length ∧
    ∃ row', (loadAndPreprocessData demoHeader demoItens).cabecalho.rows[0]? = some row' ∧
      row'.getD 3 Cell.na = Cell.str "ok" := by
  have h := C9_mutation_frame_amended demoHeader demoItens (by decide) (by decide)
    (fillConsolidado (preJoin demoHeader demoItens)) rfl
  refine ⟨h.1, h.2.2.2.1, ?_⟩
  cases hx : (loadAndPreprocessData demoHeader demoItens).cabecalho.rows[0]? with
  | none =>
    rw [List.getElem?_eq_none_iff] at hx
    rw [h.1] at hx
    simp [demoHeader] at hx
  | some row' =>
    refine ⟨row', rfl, ?_⟩
    have := h.2.2.2.2.1 0 3 (demoHeader.rows.getD 0 []) row' (by decide) hx
      (by rw [h.2.1]; decide) (by decide) (by decide)
    rw [this]
    decide

/-! ### Claim C7 (top-N grouping) -/

instance : IsTotal (Cell × Rat) byValGe := ⟨fun a b => le_total b.2 a.2⟩

instance : IsTrans (Cell × Rat) byValGe := ⟨fun _ _ _ h1 h2 => le_trans h2 h1⟩

instance : IsTotal (Cell × Rat) byValLe := ⟨fun a b => le_total a.2 b.2⟩

instance : IsTrans (Cell × Rat) byValLe := ⟨fun _ _ _ h1 h2 => le_trans h1 h2⟩

theorem nlargestPd_spec (n : Int) (l : List (Cell × Rat)) :
    (nlargestPd n l).length = min n.toNat l.length ∧
    List.Sorted byValGe (nlargestPd n l) ∧
    (∀ x ∈ nlargestPd n l, x ∈ l) ∧
    (∀ g ∈ l, g ∉ nlargestPd n l → ∀ o ∈ nlargestPd n l, g.2 ≤ o.2) := by
  unfold nlargestPd
  have hperm : (List.insertionSort byValGe l).Perm l := List.perm_insertionSort byValGe l
  have hsorted : List.Sorted byValGe (List.insertionSort byValGe l) :=
    List.sorted_insertionSort byValGe l
  refine ⟨?_, ?_, ?_, ?_⟩
  · rw [List.length_take, hperm.length_eq]
  · exact List.Pairwise.sublist (List.take_sublist _ _) hsorted
  · intro x hx
    exact hperm.mem_iff.mp (List.mem_of_mem_take hx)
  · intro g hg hgout o ho
    have hgs : g ∈ List.insertionSort byValGe l := hperm.mem_iff.mpr hg
    have hsplit : g ∈ (List.insertionSort byValGe l).take n.toNat ++
        (List.insertionSort byValGe l).drop n.toNat := by
      rw [List.take_append_drop]
      exact hgs
    rcases List.mem_append.mp hsplit with hgt | hgd
    · exact absurd hgt hgout
    · have hpw := hsorted
      rw [List.Sorted, ← List.take_append_drop n.toNat (List.insertionSort byValGe l)] at hpw
      exact (List.pairwise_append.mp hpw).2.2 o ho g hgd

theorem nsmallestPd_spec (n : Int) (l : List (Cell × Rat)) :
    (nsmallestPd n l).length = min n.toNat l.length ∧
    List.Sorted byValLe (nsmallestPd n l) ∧
    (∀ x ∈ nsmallestPd n l, x ∈ l) ∧
    (∀ g ∈ l, g ∉ nsmallestPd n l → ∀ o ∈ nsmallestPd n l, o.2 ≤ g.2) := by
  unfold nsmallestPd
  have hperm : (List.insertionSort byValLe l).Perm l := List.perm_insertionSort byValLe l
  have hsorted : List.Sorted byValLe (List.insertionSort byValLe l) :=
    List.sorted_insertionSort byValLe l
  refine ⟨?_, ?_, ?_, ?_⟩
  · rw [List.length_take, hperm.length_eq]
  · exact List.Pairwise.sublist (List.take_sublist _ _) hsorted
  · intro x hx
    exact hperm.mem_iff.mp (List.mem_of_mem_take hx)
  · intro g hg hgout o ho
    have hgs : g ∈ List.insertionSort byValLe l := hperm.mem_iff.mpr hg
    have hsplit : g ∈ (List.insertionSort byValLe l).take n.toNat ++
        (List.insertionSort byValLe l).drop n.toNat := by
      rw [List.take_append_drop]
      exact hgs
    rcases List.mem_append.mp hsplit with hgt | hgd
    · exact absurd hgt hgout
    · have hpw := hsorted
      rw [List.Sorted, ← List.take_append_drop n.toNat (List.insertionSort byValLe l)] at hpw
      exact (List.pairwise_append.mp hpw).2.2 o ho g hgd

/-- Every entry of `groupbySum` is a per-key sum over the rows carrying that
    key, and its key is an actual value of the grouping column. -/
theorem groupbySum_mem (df : DataFrame) (kc vc : String) (kv : Cell × Rat)
    (hkv : kv ∈ groupbySum df kc vc) :
    kv.2 = ((df.rows.filter (fun r => getCell df.cols r kc == kv.1)).map
      (fun r => cellNum (getCell df.cols r vc))).sum ∧
    kv.1 ∈ df.rows.map (fun r => getCell df.cols r kc) ∧ kv.1 ≠ Cell.na := by
  unfold groupbySum at hkv
  simp only [List.mem_map] at hkv
  obtain ⟨k, hk, rfl⟩ := hkv
  have hkmem : k ∈ distinctKeys df kc :=
    (List.perm_insertionSort cellKeyLe (distinctKeys df kc)).mem_iff.mp hk
  unfold distinctKeys at hkmem
  have hkmem' := List.mem_dedup.mp hkmem
  rw [List.mem_filter] at hkmem'
  refine ⟨rfl, hkmem'.1, ?_⟩
  have := hkmem'.2
  simpa using this

/-- C7: for a loaded table and coercible `n`, `obter_top_n_itens_por` groups
    rows by `ITEM`, sums `QUANTIDADE` (metric `quantidade`) or
    `VALOR TOTAL` (metric `valor`) per group, and returns the `n` groups
    with the largest (order `maior`) or smallest (`menor`) sums in
    ranking order — the returned list is sorted, drawn from the group sums,
    of length `min n (number of groups)`, and dominates every omitted group;
    on the concrete table with group sums A:100, B:50, C:200, D:75 it
    returns exactly C:200, A:100, D:75 in that order. -/
theorem C7_top_n_determinism (df : DataFrame) (hne : df.isEmpty = false)
    (n : PyVal) (nv : Int) (hn : pyToInt n = some nv)
    (hitem : df.cols.contains "ITEM" = true) :
    (∀ metrica valCol : String,
      (metrica = "quantidade" ∧ valCol = "QUANTIDADE") ∨
        (metrica = "valor" ∧ valCol = "VALOR TOTAL") →
      df.cols.contains valCol = true →
      obterTopNItensPor df metrica n "maior" =
        ToolResult.series (nlargestPd nv (groupbySum df "ITEM" valCol)) ∧
      obterTopNItensPor df metrica n "menor" =
        ToolResult.series (nsmallestPd nv (groupbySum df "ITEM" valCol))) ∧
    (∀ valCol : String,
      (∀ kv ∈ groupbySum df "ITEM" valCol,
        kv.2 = ((df.rows.filter (fun r => getCell df.cols r "ITEM" == kv.1)).map
          (fun r => cellNum (getCell df.cols r valCol))).sum) ∧
      (nlargestPd nv (groupbySum df "ITEM" valCol)).length =
        min nv.toNat (groupbySum df "ITEM" valCol).length ∧
      List.Sorted byValGe (nlargestPd nv (groupbySum df "ITEM" valCol)) ∧
      (∀ x ∈ nlargestPd nv (groupbySum df "ITEM" valCol),
        x ∈ groupbySum df "ITEM" valCol) ∧
      (∀ g ∈ groupbySum df "ITEM" valCol,
        g ∉ nlargestPd nv (groupbySum df "ITEM" valCol) →
        ∀ o ∈ nlargestPd nv (groupbySum df "ITEM" valCol), g.2 ≤ o.2) ∧
      List.Sorted byValLe (nsmallestPd nv (groupbySum df "ITEM" valCol)) ∧
      (∀ g ∈ groupbySum df "ITEM" valCol,
        g ∉ nsmallestPd nv (groupbySum df "ITEM" valCol) →
        ∀ o ∈ nsmallestPd nv (groupbySum df "ITEM" valCol), o.2 ≤ g.2)) ∧
    obterTopNItensPor topNTable "valor" (PyVal.vint 3) "maior" =
      ToolResult.series [(Cell.str "C", 200), (Cell.str "A", 100), (Cell.str "D", 75)] := by
  refine ⟨?_, ?_, ?_⟩
  · rintro metrica valCol (⟨rfl, rfl⟩ | ⟨rfl, rfl⟩) hvc <;>
    · have h1 : "ITEM" ∈ df.cols := by simpa using hitem
      have h2 := List.elem_iff.mp hvc
      exact ⟨by simp [obterTopNItensPor, hn, hne, h1, h2],
        by simp [obterTopNItensPor, hn, hne, h1, h2]⟩
  · intro valCol
    obtain ⟨hl1, hl2, hl3, hl4⟩ := nlargestPd_spec nv (groupbySum df "ITEM" valCol)
    obtain ⟨-, hs2, -, hs4⟩ := nsmallestPd_spec nv (groupbySum df "ITEM" valCol)
    exact ⟨fun kv hkv => (groupbySum_mem df "ITEM" valCol kv hkv).1,
      hl1, hl2, hl3, hl4, hs2, hs4⟩
  · simp +decide [obterTopNItensPor, pyToInt, topNTable, groupbySum, distinctKeys,
      getCell, findCol, List.insertionSort, List.orderedInsert, cellKeyLe, cellToPyStr,
      strLtChars, cellNum, List.dedup, nlargestPd, byValGe, DataFrame.isEmpty]
    norm_num

/-- C7 witness: the top-N theorem applied to the concrete table (both
    orders, metric `valor`). -/
theorem C7_top_n_determinism_witness :
    obterTopNItensPor topNTable "valor" (PyVal.vint 3) "maior" =
      ToolResult.series (nlargestPd 3 (groupbySum topNTable "ITEM" "VALOR TOTAL")) ∧
    obterTopNItensPor topNTable "valor" (PyVal.vint 3) "menor" =
      ToolResult.series (nsmallestPd 3 (groupbySum topNTable "ITEM" "VALOR TOTAL")) :=
  (C7_top_n_determinism topNTable (by decide) (PyVal.vint 3) 3 (by decide)
    (by decide)).1 "valor" "VALOR TOTAL" (Or.inr ⟨rfl, rfl⟩) (by decide)

/-! ### Claim C1 (join exactness) -/

theorem fillConsolidado_rows_map (m : DataFrame) :
    (fillConsolidado m).rows = m.rows.map (fun r =>
      ((m.cols.zip r).map (fun p =>
        if ["ITEM", "FORNECEDOR"].contains p.1 && p.2 == Cell.na then Cell.str sentinel
        else p.2)).map (fun x => if x == Cell.na then Cell.num 0 else x)) := by
  simp [fillConsolidado, fillAllNa, fillCols, List.map_map, Function.comp_def]

/-- Each published row reads, at any column, as the null-fill rule applied to
    the corresponding joined row's cell. -/
theorem fillConsolidado_getCell (m : DataFrame) (hwf : m.WF) (cname : String)
    (hmem : cname ∈ m.cols) :
    ∀ row ∈ (fillConsolidado m).rows, ∃ mrow ∈ m.rows,
      getCell (fillConsolidado m).cols row cname =
        fillRule cname (getCell m.cols mrow cname) := by
  intro row hrow
  rw [fillConsolidado_rows_map] at hrow
  simp only [List.mem_map] at hrow
  obtain ⟨mrow, hmrow, rfl⟩ := hrow
  refine ⟨mrow, hmrow, ?_⟩
  have hmlen : mrow.length = m.cols.length := hwf mrow hmrow
  have hzlen : m.cols.length ≤ ((m.cols.zip mrow).map (fun p =>
      if ["ITEM", "FORNECEDOR"].contains p.1 && p.2 == Cell.na then Cell.str sentinel
      else p.2)).length := by
    simp [List.length_zip, hmlen]
  show getCell m.cols _ cname = _
  rw [getCell_map (fun x => if x == Cell.na then Cell.num 0 else x) m.cols _ cname
    hzlen hmem]
  rw [getCell_zipmap (fun n x =>
    if ["ITEM", "FORNECEDOR"].contains n && x == Cell.na then Cell.str sentinel else x)
    m.cols mrow cname (by omega) hmem]
  exact fill_chain_eq cname (getCell m.cols mrow cname)

theorem sum_filter_eq_of_zero (l : List Cell) (p : Cell → Bool) (f : Cell → Nat)
    (hz : ∀ x ∈ l, p x = false → f x = 0) :
    ((l.filter p).map f).sum = (l.map f).sum := by
  induction l with
  | nil => rfl
  | cons x xs ih =>
    rw [List.filter_cons]
    have ih' := ih (fun y hy hpy => hz y (List.mem_cons_of_mem x hy) hpy)
    by_cases hp : p x
    · rw [if_pos hp]
      simp only [List.map_cons, List.sum_cons]
      rw [ih']
    · rw [if_neg (by simpa using hp)]
      simp only [List.map_cons, List.sum_cons]
      rw [ih', hz x (List.mem_cons_self x xs) (by simpa using hp)]
      omega

theorem countKey_eq_zero (df : DataFrame) (k : Cell)
    (hk : (keyVals df).contains k = false) : countKey df k = 0 := by
  unfold countKey
  rw [List.length_eq_zero, List.filter_eq_nil_iff]
  intro r hr hbeq
  have hmem : k ∈ keyVals df := by
    unfold keyVals
    rw [List.mem_map]
    exact ⟨r, hr, by simpa using hbeq⟩
  have hx : (keyVals df).contains k = true := by simpa using hmem
  rw [hk] at hx
  exact Bool.noConfusion hx

/-- The clean (column-dropped) item table has exactly the rows of the item table
    for any given key. -/
theorem clean_countKey (hK iK : DataFrame) (hwfIK : iK.WF) (k : Cell) :
    ((cleanItens hK iK).rows.filter
      (fun ir => getCell (cleanItens hK iK).cols ir KEY == k)).length = countKey iK k := by
  have hKnotdrop : (iK.cols.filter
      (fun c => hK.cols.contains c && c != KEY)).contains KEY = false := by
    by_cases h : (iK.cols.filter (fun c => hK.cols.contains c && c != KEY)).contains KEY = true
    · have : KEY ∈ iK.cols.filter (fun c => hK.cols.contains c && c != KEY) :=
        List.elem_iff.mp h
      rw [List.mem_filter] at this
      simp at this
    · simpa using h
  unfold cleanItens DataFrame.dropCols countKey
  rw [List.filter_map, List.length_map]
  congr 1
  apply List.filter_congr
  intro r hr
  have hP : (!((iK.cols.filter
      (fun c => hK.cols.contains c && c != KEY)).contains KEY)) = true := by
    rw [hKnotdrop]
    rfl
  have hget := getCell_zipfilter
    (fun s => !((iK.cols.filter (fun c => hK.cols.contains c && c != KEY)).contains s))
    iK.cols r KEY hP
  simp only [Function.comp]
  rw [hget]

/-- C1 counterexample: with a duplicated header key, the consolidated table
    has two rows while the formula of the claim (sum over shared keys of item
    rows per key) predicts one. -/
theorem C1_join_counterexample :
    (∃ c, (loadAndPreprocessData dupKeyHeader dupKeyItens).consolidado = some c ∧
      c.rows.length = 2) ∧
    specRowCount (loadAndPreprocessData dupKeyHeader dupKeyItens).cabecalho
      (loadAndPreprocessData dupKeyHeader dupKeyItens).itens = 1 := by
  exact ⟨⟨fillConsolidado (preJoin dupKeyHeader dupKeyItens), rfl, by decide⟩, by decide⟩

/-- C1 amended: the consolidated table is the inner join on the cast key —
    its row count is the sum, over header rows, of the number of item rows
    with that key (so duplicated header keys multiply); when the header keys
    are unique this equals the sum, claimed, over shared keys of item rows per
    key; every row's key occurs in both preprocessed tables; and zero shared
    keys yields a valid empty table rather than an error. -/
theorem C1_join_exactness_amended (dfC dfI : DataFrame) (hwfH : dfC.WF) (hwfI : dfI.WF)
    (c : DataFrame) (hc : (loadAndPreprocessData dfC dfI).consolidado = some c) :
    c.rows.length = ((loadAndPreprocessData dfC dfI).cabecalho.rows.map (fun hr =>
      countKey (loadAndPreprocessData dfC dfI).itens
        (getCell (loadAndPreprocessData dfC dfI).cabecalho.cols hr KEY))).sum ∧
    ((keyVals (loadAndPreprocessData dfC dfI).cabecalho).Nodup →
      c.rows.length = specRowCount (loadAndPreprocessData dfC dfI).cabecalho
        (loadAndPreprocessData dfC dfI).itens) ∧
    (∀ row ∈ c.rows,
      getCell c.cols row KEY ∈ keyVals (loadAndPreprocessData dfC dfI).cabecalho ∧
      getCell c.cols row KEY ∈ keyVals (loadAndPreprocessData dfC dfI).itens) ∧
    (sharedKeys (loadAndPreprocessData dfC dfI).cabecalho
        (loadAndPreprocessData dfC dfI).itens = [] → c.rows = []) := by
  obtain ⟨hceq, hcab, hit, hkH, hkI⟩ := consolidado_eq dfC dfI c hc
  rw [hcab, hit]
  set hK := castColToStr (normalizeHeader dfC) KEY with hhK
  set iK := castColToStr (normalizeItens dfI) KEY with hiK
  have hwfHK : hK.WF := WF_castColToStr _ _ (WF_normalizeHeader _ hwfH)
  have hwfIK : iK.WF := WF_castColToStr _ _ (WF_normalizeItens _ hwfI)
  have hkeyH : KEY ∈ hK.cols := hkH
  have hkeyI : KEY ∈ iK.cols := hkI
  have hwfM : (preJoin dfC dfI).WF :=
    WF_mergeInner _ _ _ hwfHK (WF_cleanItens _ _ hwfIK)
  have hkeyM : KEY ∈ (preJoin dfC dfI).cols := by
    show KEY ∈ hK.cols ++ _
    exact List.mem_append_left _ hkeyH
  -- (1) the general row count
  have hcount : c.rows.length = (hK.rows.map (fun hr =>
      countKey iK (getCell hK.cols hr KEY))).sum := by
    rw [hceq, fillConsolidado_rows_length]
    show (mergeInner hK (cleanItens hK iK) KEY).rows.length = _
    rw [mergeInner_rows_length]
    congr 1
    apply List.map_congr_left
    intro hr _
    exact clean_countKey hK iK hwfIK (getCell hK.cols hr KEY)
  refine ⟨hcount, ?_, ?_, ?_⟩
  -- (2) the formula of the claim under unique header keys
  · intro hnodup
    rw [hcount]
    unfold specRowCount sharedKeys
    rw [List.dedup_eq_self.mpr hnodup]
    have hmm : (hK.rows.map (fun hr => countKey iK (getCell hK.cols hr KEY))).sum =
        ((keyVals hK).map (fun k => countKey iK k)).sum := by
      unfold keyVals
      rw [List.map_map]
      rfl
    rw [hmm]
    rw [sum_filter_eq_of_zero (keyVals hK) _ _
      (fun k _ hk => countKey_eq_zero iK k hk)]
  -- (3) every row's key occurs in both tables
  · intro row hrow
    rw [hceq] at hrow
    obtain ⟨mrow, hmrow, hval⟩ :=
      fillConsolidado_getCell (preJoin dfC dfI) hwfM KEY hkeyM row hrow
    rw [hceq]
    show getCell (fillConsolidado (preJoin dfC dfI)).cols row KEY ∈ _ ∧
      getCell (fillConsolidado (preJoin dfC dfI)).cols row KEY ∈ _
    rw [hval]
    obtain ⟨hr, hhr, ir, hir, hkeq, hmrw⟩ :=
      (mem_mergeInner_rows hK (cleanItens hK iK) KEY mrow).mp hmrow
    have hmkey : getCell (preJoin dfC dfI).cols mrow KEY = getCell hK.cols hr KEY := by
      rw [hmrw]
      exact getCell_append_left hK.cols _ hr _ KEY hkeyH (hwfHK hr hhr)
    have hstr : ∃ s, getCell hK.cols hr KEY = Cell.str s := by
      rw [hhK] at hhr ⊢
      unfold castColToStr DataFrame.mapCol at hhr ⊢
      simp only [List.mem_map] at hhr
      obtain ⟨r0, hr0, rfl⟩ := hhr
      have hlen : (normalizeHeader dfC).cols.length ≤ r0.length := by
        rw [(WF_normalizeHeader _ hwfH) r0 hr0]
      rw [getCell_zipmap (fun n x => if n = KEY then Cell.str (cellToPyStr x) else x)
        (normalizeHeader dfC).cols r0 KEY hlen hkH]
      exact ⟨cellToPyStr (getCell (normalizeHeader dfC).cols r0 KEY), if_pos rfl⟩
    obtain ⟨s, hs⟩ := hstr
    have hfill : fillRule KEY (getCell (preJoin dfC dfI).cols mrow KEY) =
        getCell hK.cols hr KEY := by
      rw [hmkey, hs]
      simp [fillRule]
    rw [hfill]
    constructor
    · unfold keyVals
      rw [List.mem_map]
      exact ⟨hr, hhr, rfl⟩
    · -- the matching clean row comes from an item row with the same key
      have hirsrc : ∃ ir0 ∈ iK.rows, getCell (cleanItens hK iK).cols ir KEY =
          getCell iK.cols ir0 KEY := by
        unfold cleanItens DataFrame.dropCols at hir
        simp only [List.mem_map] at hir
        obtain ⟨ir0, hir0, rfl⟩ := hir
        refine ⟨ir0, hir0, ?_⟩
        have hKnotdrop : (iK.cols.filter
            (fun cn => hK.cols.contains cn && cn != KEY)).contains KEY = false := by
          by_cases h : (iK.cols.filter
              (fun cn => hK.cols.contains cn && cn != KEY)).contains KEY = true
          · have := List.elem_iff.mp h
            rw [List.mem_filter] at this
            simp at this
          · simpa using h
        have hP : (!((iK.cols.filter
            (fun cn => hK.cols.contains cn && cn != KEY)).contains KEY)) = true := by
          rw [hKnotdrop]
          rfl
        exact getCell_zipfilter
          (fun s => !((iK.cols.filter
            (fun cn => hK.cols.contains cn && cn != KEY)).contains s))
          iK.cols ir0 KEY hP
      obtain ⟨ir0, hir0, hir0eq⟩ := hirsrc
      unfold keyVals
      rw [List.mem_map]
      exact ⟨ir0, hir0, by rw [← hir0eq, hkeq]⟩
  -- (4) zero shared keys yields the empty table
  · intro hshared
    have hz : ∀ hr ∈ hK.rows, countKey iK (getCell hK.cols hr KEY) = 0 := by
      intro hr hhr
      apply countKey_eq_zero
      by_cases hcont : (keyVals iK).contains (getCell hK.cols hr KEY) = true
      · exfalso
        have hmemk : getCell hK.cols hr KEY ∈ (keyVals hK).dedup := by
          rw [List.mem_dedup]
          unfold keyVals
          rw [List.mem_map]
          exact ⟨hr, hhr, rfl⟩
        have : getCell hK.cols hr KEY ∈ sharedKeys hK iK := by
          unfold sharedKeys
          rw [List.mem_filter]
          exact ⟨hmemk, hcont⟩
        rw [hshared] at this
        exact List.not_mem_nil _ this
      · simpa using hcont
    have : c.rows.length = 0 := by
      rw [hcount]
      apply List.sum_eq_zero
      intro x hx
      rw [List.mem_map] at hx
      obtain ⟨hr, hhr, rfl⟩ := hx
      exact hz hr hhr
    exact List.length_eq_zero.mp this

/-- C1 witness: the amended join theorem applied to the demo upload, whose
    header keys are unique — the row-count formula of the claim then holds. -/
theorem C1_join_exactness_witness :
    (fillConsolidado (preJoin demoHeader demoItens)).rows.length =
      specRowCount (loadAndPreprocessData demoHeader demoItens).cabecalho
        (loadAndPreprocessData demoHeader demoItens).itens :=
  (C1_join_exactness_amended demoHeader demoItens (by decide) (by decide) _ rfl).2.1
    (by decide)

end Agente

